import Mathlib

/-!
Verification development for the planter sheet-nesting solver
(`src/lib/planterSolver.ts`, second variant — the one with the floor flag,
L-cut bundles, waste-aware sheet selection and full-sheet material pricing).

JavaScript numbers are modelled as exact rationals.  To keep every program
definition kernel-executable we use an unreduced fraction type `Q`
(numerator, positive denominator) whose arithmetic and comparisons are plain
integer operations; `Q.val : Q → ℚ` interprets a fraction as the rational it
denotes, and transfer lemmas relate the executable operations to `ℚ`.
All value comparisons performed by the source (`===`, `!==`, `<`, `>=`,
`Math.min`, `Math.max`, `Set` dedup) are value comparisons on numbers, hence
modelled by `Q.qeq` / `Q.qle` / `Q.qlt` etc., never by structural equality.
-/

/-- A JavaScript number modelled as an exact, not necessarily reduced
fraction with a positive denominator. -/
structure Q where
  num : Int
  den : Nat
  den_pos : 0 < den

namespace Q

/-- The rational value denoted by a fraction. -/
def val (a : Q) : ℚ := (a.num : ℚ) / (a.den : ℚ)

/-- Embed an integer. -/
def ofInt (n : Int) : Q := ⟨n, 1, Nat.one_pos⟩

/-- Embed a natural number. -/
def ofNat (n : Nat) : Q := ⟨(n : Int), 1, Nat.one_pos⟩

/-- The number `0`. -/
def zero : Q := ofInt 0

/-- Addition (cross multiplication, no reduction). -/
def add (a b : Q) : Q :=
  ⟨a.num * (b.den : Int) + b.num * (a.den : Int), a.den * b.den,
    Nat.mul_pos a.den_pos b.den_pos⟩

/-- Subtraction. -/
def sub (a b : Q) : Q :=
  ⟨a.num * (b.den : Int) - b.num * (a.den : Int), a.den * b.den,
    Nat.mul_pos a.den_pos b.den_pos⟩

/-- Multiplication. -/
def mul (a b : Q) : Q :=
  ⟨a.num * b.num, a.den * b.den, Nat.mul_pos a.den_pos b.den_pos⟩

/-- Division by the literal `144` (the only division the solver performs:
square inches to square feet). -/
def div144 (a : Q) : Q :=
  ⟨a.num, a.den * 144, Nat.mul_pos a.den_pos (by norm_num)⟩

/-- Value equality (JavaScript `===` on numbers). -/
def qeq (a b : Q) : Bool := decide (a.num * (b.den : Int) = b.num * (a.den : Int))

/-- Value `<=` (JavaScript `<=` on numbers). -/
def qle (a b : Q) : Bool := decide (a.num * (b.den : Int) ≤ b.num * (a.den : Int))

/-- Value `<` (JavaScript `<` on numbers). -/
def qlt (a b : Q) : Bool := decide (a.num * (b.den : Int) < b.num * (a.den : Int))

/-- JavaScript `Math.max` of two numbers. -/
def qmax (a b : Q) : Q := if qle a b then b else a

/-- JavaScript `Math.min` of two numbers. -/
def qmin (a b : Q) : Q := if qle a b then a else b

end Q

/-!
Lexicographic string comparison.  The source breaks ties with
`String.localeCompare`; all names and ids it ever compares are plain ASCII,
for which `localeCompare` agrees with code-point lexicographic order, so we
model `a.localeCompare(b) <= 0` by a code-point comparison on the character
lists.  (Lean's own `String.lt` is not kernel-reducible in this toolchain,
hence the explicit recursion.)
-/

/-- Code-point lexicographic `<=` on character lists. -/
def charsLe : List Char → List Char → Bool
  | [], _ => true
  | _ :: _, [] => false
  | c :: cs, d :: ds =>
    if c.toNat < d.toNat then true
    else if d.toNat < c.toNat then false
    else charsLe cs ds

/-- `a.localeCompare(b) <= 0` for ASCII strings. -/
def strLe (a b : String) : Bool := charsLe a.data b.data

/-!
The data model, ported field by field from `src/lib/planterSolver.ts`
(second variant).  The `solverTimestamp` field is produced by
`new Date().toISOString()` in the source; the current time is an external
input, so `runPlanterSolver` receives it here as an explicit argument.
-/

/-- `FabricationDimensions` from the source. -/
structure FabricationDimensions where
  length : Q
  width : Q
  height : Q

/-- `SheetInventoryRow` from the source. -/
structure SheetInventoryRow where
  id : String
  name : String
  width : Q
  height : Q
  costPerSqft : Q
  quantity : Q
  limitQuantity : Bool

/-- The `type` union of `PanelBlueprint`. -/
inductive PanelType where
  | floor | long | short | liner | shelf
deriving DecidableEq

/-- `PanelBlueprint` from the source. -/
structure PanelBlueprint where
  id : String
  name : String
  width : Q
  height : Q
  type : PanelType
  isLiner : Bool

/-- `Placement` from the source. -/
structure Placement where
  id : String
  candidateId : String
  panelId : String
  sheetInstanceId : String
  rowId : String
  name : String
  x : Q
  y : Q
  width : Q
  height : Q
  rotated : Bool
  isLiner : Bool
  isBundle : Bool
  panelType : PanelType

/-- `SheetInstanceUsage` from the source. -/
structure SheetInstanceUsage where
  id : String
  rowId : String
  name : String
  width : Q
  height : Q
  costPerSqft : Q
  placements : List Placement
  areaUsedSqft : Q

/-- `SolverResult` from the source. -/
structure SolverResult where
  placements : List Placement
  sheetUsages : List SheetInstanceUsage
  totalMaterialCost : Q
  totalFabricationCost : Q
  materialAreaSqft : Q
  bundleSavings : Q
  linerAreaSqft : Q
  linerExtraCost : Q
  solverTimestamp : String

/-- `SolverOptions` from the source (optional fields are `Option`s). -/
structure SolverOptions where
  inventory : Option (List SheetInventoryRow)
  linerHeightPercent : Option Q

/-- `Candidate` from the source. -/
structure Candidate where
  id : String
  name : String
  panels : List PanelBlueprint
  totalArea : Q
  longestSide : Q
  costImpact : Q
  bundleSavings : Q
  isBundle : Bool

/-- `SheetInstance` from the source. -/
structure SheetInstance where
  id : String
  rowId : String
  name : String
  width : Q
  height : Q
  costPerSqft : Q
  placements : List Placement
  usedAreaIn2 : Q

/-- `PlanterInput` from `src/types.ts` (second variant; the fields
the solver never reads are kept for fidelity). -/
structure PlanterInput where
  length : Q
  width : Q
  height : Q
  marginPct : Q
  thickness : Q
  lip : Q
  linerEnabled : Bool
  linerDepth : Q
  linerThickness : Q
  weightPlateEnabled : Bool
  floorEnabled : Bool
  shelfEnabled : Bool

/-- `CostBreakdownPreview` as consumed by the solver: it only reads the
`category` and `price` fields. -/
structure CostBreakdownPreview where
  category : String
  price : Q

/-- `LINER_HEIGHT_PERCENT` from the source. -/
def linerHeightPercentDefault : Q := ⟨1, 2, by norm_num⟩

/-- `DEFAULT_SHEET_INVENTORY` from the source. -/
def defaultSheetInventory : List SheetInventoryRow :=
  [ ⟨"sheet-4x8-2-73", "4x8 at 2.73", Q.ofNat 48, Q.ofNat 96, ⟨273, 100, by norm_num⟩,
      Q.ofNat 10, true⟩,
    ⟨"sheet-4x8-3-45", "4x8 at 3.45", Q.ofNat 48, Q.ofNat 96, ⟨345, 100, by norm_num⟩,
      Q.ofNat 10, true⟩,
    ⟨"sheet-4x8-5-1", "4x8 at 5.10", Q.ofNat 48, Q.ofNat 96, ⟨51, 10, by norm_num⟩,
      Q.ofNat 10, true⟩,
    ⟨"sheet-4x8-9-25", "4x8 at 9.25", Q.ofNat 48, Q.ofNat 96, ⟨925, 100, by norm_num⟩,
      Q.ofNat 6, true⟩,
    ⟨"sheet-4x8-20-5", "4x8 at 20.50", Q.ofNat 48, Q.ofNat 96, ⟨205, 10, by norm_num⟩,
      Q.ofNat 4, true⟩,
    ⟨"sheet-5x10-3-25", "5x10 at 3.25", Q.ofNat 60, Q.ofNat 120, ⟨325, 100, by norm_num⟩,
      Q.ofNat 6, true⟩,
    ⟨"sheet-5x12-15", "5x12 at 15.00", Q.ofNat 60, Q.ofNat 144, Q.ofNat 15,
      Q.ofNat 3, true⟩ ]

/-- `buildFabricationDimensions` from the source (second variant: only the
height receives the lip addition). -/
def buildFabricationDimensions (input : PlanterInput) : FabricationDimensions :=
  { length := input.length
    width := input.width
    height := Q.add input.height input.lip }

/-- `getOrientations` from the source. -/
structure PanelOrientation where
  width : Q
  height : Q
  rotated : Bool

/-- `getOrientations(width, height)`: the unrotated orientation, plus the
rotated one when the sides differ as numbers. -/
def getOrientations (width height : Q) : List PanelOrientation :=
  if Q.qeq width height then [⟨width, height, false⟩]
  else [⟨width, height, false⟩, ⟨height, width, true⟩]

/-- `rectanglesOverlap` from the source: strict interior intersection,
rectangles that merely share an edge do not overlap. -/
def rectanglesOverlap (x y width height ox oy owidth oheight : Q) : Bool :=
  !(Q.qle (Q.add x width) ox || Q.qle (Q.add ox owidth) x ||
    Q.qle (Q.add y height) oy || Q.qle (Q.add oy oheight) y)

/-- `rectanglesOverlap` applied to two placements. -/
def placementsOverlap (a b : Placement) : Bool :=
  rectanglesOverlap a.x a.y a.width a.height b.x b.y b.width b.height

/-- `isPlacementInsideSheet` from the source. -/
def isPlacementInsideSheet (sheet : SheetInstance) (p : Placement) : Bool :=
  Q.qle Q.zero p.x && Q.qle Q.zero p.y &&
  Q.qle (Q.add p.x p.width) sheet.width && Q.qle (Q.add p.y p.height) sheet.height

/-- The `i < j` double loop of `arePlacementsValidForSheet`. -/
def pairwiseNoOverlap : List Placement → Bool
  | [] => true
  | p :: rest => rest.all (fun q => !placementsOverlap p q) && pairwiseNoOverlap rest

/-- `arePlacementsValidForSheet` from the source. -/
def arePlacementsValidForSheet (sheet : SheetInstance) (ps : List Placement) : Bool :=
  ps.all (isPlacementInsideSheet sheet) &&
  pairwiseNoOverlap ps &&
  ps.all (fun p => !(sheet.placements.any (fun existing => placementsOverlap p existing)))

/-- `getSheetCost` from the source. -/
def getSheetCost (width height costPerSqft : Q) : Q :=
  Q.mul (Q.div144 (Q.mul width height)) costPerSqft

/-- `isLCutBundleCandidate` from the source. -/
def isLCutBundleCandidate (candidateId : String) : Bool :=
  candidateId == "bundle-panel-long-a-panel-short-a" ||
  candidateId == "bundle-panel-long-b-panel-short-b"

/-- `compareCandidates(a, b) <= 0`: the comparator passed to the stable
`Array.prototype.sort`, expressed as the total preorder it induces.  When
the L-cut flags differ the comparator returns `aIsLCut ? -1 : 1`; with
equal flags it walks the tie-break chain, moving on whenever the current
key compares equal as a number. -/
def compareCandidatesLe (a b : Candidate) : Bool :=
  match isLCutBundleCandidate a.id, isLCutBundleCandidate b.id with
  | true, false => true
  | false, true => false
  | _, _ =>
    cond (Q.qeq a.costImpact b.costImpact)
      (cond (Q.qeq a.totalArea b.totalArea)
        (cond (Q.qeq a.longestSide b.longestSide)
          (strLe a.name b.name)
          (Q.qle a.longestSide b.longestSide))
        (Q.qle a.totalArea b.totalArea))
      (Q.qle a.costImpact b.costImpact)

/-- The row comparator of `buildOrderedSheetRows` as a total preorder
(whole-sheet cost, then cost per square foot, then id). -/
def sheetRowLe (a b : SheetInventoryRow) : Bool :=
  let costA := getSheetCost a.width a.height a.costPerSqft
  let costB := getSheetCost b.width b.height b.costPerSqft
  if Q.qeq costA costB = false then Q.qle costA costB
  else if Q.qeq a.costPerSqft b.costPerSqft = false then Q.qle a.costPerSqft b.costPerSqft
  else strLe a.id b.id

/-- `buildOrderedSheetRows` from the source: a stable sort of the inventory
by the row comparator (stable sorts by the same total preorder agree, so
`insertionSort` reproduces `Array.prototype.sort`). -/
def buildOrderedSheetRows (inventory : List SheetInventoryRow) : List SheetInventoryRow :=
  inventory.insertionSort (fun a b => sheetRowLe a b = true)

/-- Dedup by value keeping first occurrences, with the values already seen
as an accumulator (structural recursion so the kernel can evaluate it). -/
def dedupQAux (seen : List Q) : List Q → List Q
  | [] => []
  | a :: rest =>
    if seen.any (fun b => Q.qeq b a) then dedupQAux seen rest
    else a :: dedupQAux (a :: seen) rest

/-- Membership in a `Set<number>` / dedup by value, keeping first
occurrences (JavaScript sets iterate in insertion order). -/
def dedupQ (l : List Q) : List Q := dedupQAux [] l

/-- The position record returned by `findPlacementOnSheet`. -/
structure FoundPosition where
  x : Q
  y : Q
  width : Q
  height : Q
  rotated : Bool

/-- The inner row-major anchor scan of `findPlacementOnSheet`: for one
orientation, try `y` ascending outer, `x` ascending inner; skip positions
exceeding the sheet bounds; accept the first that overlaps nothing. -/
def scanAnchors (sheet : SheetInstance) (xs ys : List Q) (w h : Q) : Option (Q × Q) :=
  ys.findSome? fun y =>
    if Q.qlt sheet.height (Q.add y h) then none
    else
      xs.findSome? fun x =>
        if Q.qlt sheet.width (Q.add x w) then none
        else if sheet.placements.any
            (fun existing => rectanglesOverlap x y w h
              existing.x existing.y existing.width existing.height) then none
        else some (x, y)

/-- `findPlacementOnSheet` from the source: anchors are `0` plus the right
edge (`x + width`) of every existing placement for `x`, and `0` plus every
bottom edge (`y + height`) for `y`, deduplicated and sorted ascending;
both orientations are scanned in row-major order. -/
def findPlacementOnSheet (sheet : SheetInstance) (width height : Q) :
    Option FoundPosition :=
  let xs := (dedupQ (Q.zero :: sheet.placements.map (fun p => Q.add p.x p.width))).insertionSort
    (fun a b => Q.qle a b = true)
  let ys := (dedupQ (Q.zero :: sheet.placements.map (fun p => Q.add p.y p.height))).insertionSort
    (fun a b => Q.qle a b = true)
  (getOrientations width height).findSome? fun o =>
    (scanAnchors sheet xs ys o.width o.height).map fun pos =>
      ⟨pos.1, pos.2, o.width, o.height, o.rotated⟩

/-- The running `reduce((sum, p) => sum + p.width * p.height, 0)` the source
uses for used-area accounting. -/
def sumArea (ps : List Placement) : Q :=
  ps.foldl (fun s p => Q.add s (Q.mul p.width p.height)) Q.zero

/-- The L-shaped combined-cut layout computed by `getLCutBundleLayout`. -/
structure LCutLayout where
  totalLength : Q
  height : Q
  longLength : Q
  shortWidth : Q

/-- `getLCutBundleLayout` from the source. -/
def getLCutBundleLayout (candidate : Candidate) (panelA panelB : PanelBlueprint) :
    Option LCutLayout :=
  if candidate.id = "bundle-panel-long-a-panel-short-a" ∨
      candidate.id = "bundle-panel-long-b-panel-short-b" then
    let pair := if panelA.type = PanelType.long then (panelA, panelB) else (panelB, panelA)
    let longPanel := pair.1
    let shortPanel := pair.2
    if longPanel.type = PanelType.long ∧ shortPanel.type = PanelType.short then
      if Q.qeq longPanel.height shortPanel.height then
        some ⟨Q.add longPanel.width shortPanel.width, longPanel.height,
          longPanel.width, shortPanel.width⟩
      else none
    else none
  else none

/-- The placement record built for a single-panel candidate. -/
def mkSinglePlacement (sheet : SheetInstance) (candidate : Candidate)
    (panel : PanelBlueprint) (f : FoundPosition) : Placement :=
  { id := candidate.id ++ "-" ++ panel.id
    candidateId := candidate.id
    panelId := panel.id
    sheetInstanceId := sheet.id
    rowId := sheet.rowId
    name := panel.name
    x := f.x, y := f.y, width := f.width, height := f.height
    rotated := f.rotated
    isBundle := false
    isLiner := panel.isLiner
    panelType := panel.type }

/-- The placement record built for one half of an ordinary bundle: position
and size from the inner search, the `rotated` flag from the outer
orientation loop (exactly as the spread-plus-override in the source). -/
def mkBundlePlacement (sheet : SheetInstance) (candidate : Candidate)
    (panel : PanelBlueprint) (f : FoundPosition) (rotated : Bool) : Placement :=
  { id := candidate.id ++ "-" ++ panel.id
    candidateId := candidate.id
    panelId := panel.id
    sheetInstanceId := sheet.id
    rowId := sheet.rowId
    name := panel.name
    x := f.x, y := f.y, width := f.width, height := f.height
    rotated := rotated
    isBundle := true
    isLiner := panel.isLiner
    panelType := panel.type }

/-- The first (long) half of an L-cut placement. -/
def mkLCutFirst (sheet : SheetInstance) (candidate : Candidate)
    (panelA : PanelBlueprint) (l : LCutLayout) (anchor : FoundPosition)
    (rotated : Bool) : Placement :=
  { id := candidate.id ++ "-" ++ panelA.id
    candidateId := candidate.id
    panelId := panelA.id
    sheetInstanceId := sheet.id
    rowId := sheet.rowId
    name := panelA.name
    x := anchor.x, y := anchor.y
    width := if rotated then l.height else l.longLength
    height := if rotated then l.longLength else l.height
    rotated := rotated
    isBundle := true
    isLiner := panelA.isLiner
    panelType := panelA.type }

/-- The second (short) half of an L-cut placement. -/
def mkLCutSecond (sheet : SheetInstance) (candidate : Candidate)
    (panelB : PanelBlueprint) (l : LCutLayout) (anchor : FoundPosition)
    (rotated : Bool) : Placement :=
  { id := candidate.id ++ "-" ++ panelB.id
    candidateId := candidate.id
    panelId := panelB.id
    sheetInstanceId := sheet.id
    rowId := sheet.rowId
    name := panelB.name
    x := if rotated then anchor.x else Q.add anchor.x l.longLength
    y := if rotated then Q.add anchor.y l.longLength else anchor.y
    width := if rotated then l.height else l.shortWidth
    height := if rotated then l.shortWidth else l.height
    rotated := rotated
    isBundle := true
    isLiner := panelB.isLiner
    panelType := panelB.type }

/-- The L-cut branch of `tryPlaceCandidate`: place the combined
`(long+short) × height` rectangle, split it, and re-validate the split. -/
def tryPlaceLCut (sheet : SheetInstance) (candidate : Candidate)
    (panelA panelB : PanelBlueprint) (l : LCutLayout) : Option (List Placement) :=
  (getOrientations l.totalLength l.height).findSome? fun o =>
    match findPlacementOnSheet sheet o.width o.height with
    | none => none
    | some anchor =>
      let firstPlacement := mkLCutFirst sheet candidate panelA l anchor o.rotated
      let secondPlacement := mkLCutSecond sheet candidate panelB l anchor o.rotated
      if arePlacementsValidForSheet sheet [firstPlacement, secondPlacement] then
        some [firstPlacement, secondPlacement]
      else none

/-- The ordinary-bundle branch of `tryPlaceCandidate`: place panel A, then
place panel B on the sheet simulated with A added, validating the pair. -/
def tryPlaceOrdinaryBundle (sheet : SheetInstance) (candidate : Candidate)
    (panelA panelB : PanelBlueprint) : Option (List Placement) :=
  (getOrientations panelA.width panelA.height).findSome? fun oA =>
    match findPlacementOnSheet sheet oA.width oA.height with
    | none => none
    | some first =>
      let firstPlacement := mkBundlePlacement sheet candidate panelA first oA.rotated
      (getOrientations panelB.width panelB.height).findSome? fun oB =>
        match findPlacementOnSheet
            { sheet with placements := sheet.placements ++ [firstPlacement] }
            oB.width oB.height with
        | none => none
        | some second =>
          let secondPlacement := mkBundlePlacement sheet candidate panelB second oB.rotated
          if arePlacementsValidForSheet sheet [firstPlacement, secondPlacement] then
            some [firstPlacement, secondPlacement]
          else none

/-- `tryPlaceCandidate` from the source.  A candidate always carries one or
two panels; the empty case is unreachable and returns `none`. -/
def tryPlaceCandidate (sheet : SheetInstance) (candidate : Candidate) :
    Option (List Placement) :=
  match candidate.panels with
  | [] => none
  | [panel] =>
    (findPlacementOnSheet sheet panel.width panel.height).map fun f =>
      [mkSinglePlacement sheet candidate panel f]
  | panelA :: panelB :: _ =>
    let viaLCut :=
      match getLCutBundleLayout candidate panelA panelB with
      | some l => tryPlaceLCut sheet candidate panelA panelB l
      | none => none
    match viaLCut with
    | some ps => some ps
    | none => tryPlaceOrdinaryBundle sheet candidate panelA panelB

/-- `buildPanels` from the source (second variant: floor gated on
`floorEnabled`, walls unconditional, shelf gated, liner gated on the inner
envelope being strictly positive in all three dimensions). -/
def buildPanels (fabrication : FabricationDimensions) (input : PlanterInput)
    (linerHeightPercent : Q) : List PanelBlueprint :=
  let floorPanels : List PanelBlueprint :=
    if input.floorEnabled then
      [⟨"panel-floor", "Floor", fabrication.width, fabrication.length, PanelType.floor, false⟩]
    else []
  let wallPanels : List PanelBlueprint :=
    [ ⟨"panel-long-a", "Long A", fabrication.length, fabrication.height, PanelType.long, false⟩,
      ⟨"panel-long-b", "Long B", fabrication.length, fabrication.height, PanelType.long, false⟩,
      ⟨"panel-short-a", "Short A", fabrication.width, fabrication.height, PanelType.short, false⟩,
      ⟨"panel-short-b", "Short B", fabrication.width, fabrication.height, PanelType.short, false⟩ ]
  let shelfPanels : List PanelBlueprint :=
    if input.shelfEnabled then
      [⟨"panel-shelf", "Shelf", fabrication.width, fabrication.length, PanelType.shelf, false⟩]
    else []
  let linerPanels : List PanelBlueprint :=
    if input.linerEnabled then
      let linerLength := Q.qmax (Q.sub input.length input.linerDepth) Q.zero
      let linerWidth := Q.qmax (Q.sub input.width input.linerDepth) Q.zero
      let linerHeight := Q.qmax (Q.mul input.height linerHeightPercent) Q.zero
      if Q.qlt Q.zero linerLength && Q.qlt Q.zero linerWidth && Q.qlt Q.zero linerHeight then
        [ ⟨"panel-liner-bottom", "Liner Bottom", linerWidth, linerLength, PanelType.liner, true⟩,
          ⟨"panel-liner-long-a", "Liner Long A", linerLength, linerHeight, PanelType.long, true⟩,
          ⟨"panel-liner-long-b", "Liner Long B", linerLength, linerHeight, PanelType.long, true⟩,
          ⟨"panel-liner-short-a", "Liner Short A", linerWidth, linerHeight, PanelType.short, true⟩,
          ⟨"panel-liner-short-b", "Liner Short B", linerWidth, linerHeight, PanelType.short, true⟩ ]
      else []
    else []
  floorPanels ++ wallPanels ++ shelfPanels ++ linerPanels

/-- Lookup in the `Map` the source builds from the panel list (a later
entry with the same id overwrites an earlier one, hence last match wins). -/
def lookupPanel (panels : List PanelBlueprint) (id : String) : Option PanelBlueprint :=
  panels.foldl (fun acc p => if p.id = id then some p else acc) none

/-- `getBundleLongestSide` from the source. -/
def getBundleLongestSide (anchorId partnerId : String)
    (anchorPanel partnerPanel : PanelBlueprint) : Q :=
  let candidateId := "bundle-" ++ anchorId ++ "-" ++ partnerId
  if candidateId = "bundle-panel-long-a-panel-short-a" ∨
      candidateId = "bundle-panel-long-b-panel-short-b" then
    Q.qmax (Q.add anchorPanel.width partnerPanel.width) anchorPanel.height
  else
    Q.qmax (Q.qmax (Q.qmax anchorPanel.width anchorPanel.height) partnerPanel.width)
      partnerPanel.height

/-- The fixed adjacency table of `buildCandidates` (anchor id, partner id,
display label). -/
def bundleAdjacency : List (String × String × String) :=
  [ ("panel-floor", "panel-long-a", "Floor + Long A"),
    ("panel-floor", "panel-long-b", "Floor + Long B"),
    ("panel-floor", "panel-short-a", "Floor + Short A"),
    ("panel-floor", "panel-short-b", "Floor + Short B"),
    ("panel-long-a", "panel-short-a", "L-cut (Long A + Short A)"),
    ("panel-long-b", "panel-short-b", "L-cut (Long B + Short B)") ]

/-- The single-panel candidate built for one blueprint. -/
def mkSingleCandidate (baseCostPerSqft : Q) (panel : PanelBlueprint) : Candidate :=
  { id := "candidate-" ++ panel.id
    name := panel.name
    panels := [panel]
    totalArea := Q.mul panel.width panel.height
    longestSide := Q.qmax panel.width panel.height
    costImpact := Q.mul (Q.div144 (Q.mul panel.width panel.height)) baseCostPerSqft
    bundleSavings := Q.zero
    isBundle := false }

/-- The bundle candidate built for one adjacency entry (when both panels
are present). -/
def mkBundleCandidate (baseCostPerSqft : Q) (anchor partner label : String)
    (anchorPanel partnerPanel : PanelBlueprint) : Candidate :=
  let areaSum := Q.add (Q.mul anchorPanel.width anchorPanel.height)
    (Q.mul partnerPanel.width partnerPanel.height)
  { id := "bundle-" ++ anchor ++ "-" ++ partner
    name := label
    panels := [anchorPanel, partnerPanel]
    totalArea := areaSum
    longestSide := getBundleLongestSide anchor partner anchorPanel partnerPanel
    costImpact := Q.mul (Q.div144 areaSum) baseCostPerSqft
    bundleSavings := Q.zero
    isBundle := true }

/-- `buildCandidates` from the source: one single per blueprint plus one
bundle per adjacency entry whose two panels are present. -/
def buildCandidates (panels : List PanelBlueprint) (baseCostPerSqft : Q) :
    List Candidate × List Candidate :=
  let singles := panels.map (mkSingleCandidate baseCostPerSqft)
  let bundles := bundleAdjacency.foldr
    (fun entry acc =>
      match lookupPanel panels entry.1, lookupPanel panels entry.2.1 with
      | some anchorPanel, some partnerPanel =>
        mkBundleCandidate baseCostPerSqft entry.1 entry.2.1 entry.2.2
          anchorPanel partnerPanel :: acc
      | _, _ => acc)
    []
  (singles, bundles)

/-- The candidate queue of `runPlanterSolver`: sorted bundles, then sorted
singles (both stable sorts by the comparator). -/
def buildCandidateQueue (panels : List PanelBlueprint) (baseCostPerSqft : Q) :
    List Candidate :=
  let built := buildCandidates panels baseCostPerSqft
  built.2.insertionSort (fun a b => compareCandidatesLe a b = true) ++
    built.1.insertionSort (fun a b => compareCandidatesLe a b = true)

/-- The `rowUsage: Record<string, number>` object, modelled as an
association list where the most recent binding for a key shadows older
ones. -/
def UsageMap := List (String × Nat)

/-- `rowUsage[row.id] ?? 0`. -/
def getUsage (m : UsageMap) (id : String) : Nat :=
  match List.find? (fun e => e.1 = id) m with
  | some e => e.2
  | none => 0

/-- `rowUsage[row.id] = v` (prepend; lookup takes the newest binding). -/
def setUsage (m : UsageMap) (id : String) (v : Nat) : UsageMap :=
  (id, v) :: m

/-- The per-row capacity guard of `placeCandidateOnSheets`: skip the row
when `usage >= (limitQuantity ? Math.max(0, quantity) : Infinity)`.  A row
with `limitQuantity = false` is never skipped. -/
def rowAtCapacity (row : SheetInventoryRow) (usage : Nat) : Bool :=
  row.limitQuantity && Q.qle (Q.qmax Q.zero row.quantity) (Q.ofNat usage)

/-- The fresh sheet instance opened from a row, identified as
`"{rowId}-{n}"` with a 1-based usage counter. -/
def freshInstance (row : SheetInventoryRow) (usage : Nat) : SheetInstance :=
  { id := row.id ++ "-" ++ Nat.repr (usage + 1)
    rowId := row.id
    name := row.name
    width := row.width
    height := row.height
    costPerSqft := row.costPerSqft
    placements := []
    usedAreaIn2 := Q.zero }

/-- Append an accepted attempt to a sheet instance (push the placements,
accumulate the used area). -/
def pushAttempt (inst : SheetInstance) (attempt : List Placement) : SheetInstance :=
  { inst with
    placements := inst.placements ++ attempt
    usedAreaIn2 := Q.add inst.usedAreaIn2 (sumArea attempt) }

/-- `canFitCandidatesOnSingleSheet` from the source: simulate packing the
whole candidate list onto one fresh sheet of the given row. -/
def canFitAux (sheet : SheetInstance) (placed : List String) :
    List Candidate → Bool
  | [] => true
  | c :: rest =>
    if c.panels.any (fun p => placed.contains p.id) then
      canFitAux sheet placed rest
    else
      match tryPlaceCandidate sheet c with
      | none => false
      | some attempt =>
        canFitAux (pushAttempt sheet attempt)
          (placed ++ c.panels.map (fun p => p.id)) rest

/-- `canFitCandidatesOnSingleSheet` from the source. -/
def canFitCandidatesOnSingleSheet (row : SheetInventoryRow)
    (candidates : List Candidate) : Bool :=
  canFitAux
    { id := "temp-sheet", rowId := row.id, name := row.name, width := row.width,
      height := row.height, costPerSqft := row.costPerSqft, placements := [],
      usedAreaIn2 := Q.zero }
    [] candidates

/-- The `bestExisting` scan of `placeCandidateOnSheets`: try every open
instance, keep the (earliest) one with strictly least waste after
placement.  Returns the index, the attempt and its waste. -/
def bestExistingAux (candidate : Candidate) :
    List SheetInstance → Nat → Option (Nat × List Placement × Q) →
    Option (Nat × List Placement × Q)
  | [], _, best => best
  | inst :: rest, i, best =>
    bestExistingAux candidate rest (i + 1)
      (match tryPlaceCandidate inst candidate with
      | none => best
      | some attempt =>
        match best with
        | none => some (i, attempt, Q.qmax Q.zero
            (Q.sub (Q.mul inst.width inst.height)
              (Q.add inst.usedAreaIn2 (sumArea attempt))))
        | some (bi, batt, bwaste) =>
          if Q.qlt (Q.qmax Q.zero
              (Q.sub (Q.mul inst.width inst.height)
                (Q.add inst.usedAreaIn2 (sumArea attempt)))) bwaste then
            some (i, attempt, Q.qmax Q.zero
              (Q.sub (Q.mul inst.width inst.height)
                (Q.add inst.usedAreaIn2 (sumArea attempt))))
          else some (bi, batt, bwaste))

/-- Replace the sheet at an index with the attempt pushed onto it. -/
def pushAttemptAt : List SheetInstance → Nat → List Placement → List SheetInstance
  | [], _, _ => []
  | inst :: rest, 0, attempt => pushAttempt inst attempt :: rest
  | inst :: rest, i + 1, attempt => inst :: pushAttemptAt rest i attempt

/-- The record tracked by the `bestNewSheet` scan. -/
structure BestNewSheet where
  row : SheetInventoryRow
  usage : Nat
  attempt : List Placement
  sheetCost : Q
  wasteAfterIn2 : Q
  canFitAllRemaining : Bool

/-- Whether a freshly evaluated row beats the current best new sheet
(the exact disjunction from the source). -/
def betterNewSheet (canFit : Bool) (sheetCost wasteAfterIn2 : Q)
    (best : Option BestNewSheet) : Bool :=
  match best with
  | none => true
  | some b =>
    (canFit && !b.canFitAllRemaining) ||
    ((canFit == b.canFitAllRemaining) && Q.qlt sheetCost b.sheetCost) ||
    ((canFit == b.canFitAllRemaining) && Q.qeq sheetCost b.sheetCost &&
      Q.qlt wasteAfterIn2 b.wasteAfterIn2)

/-- The `bestNewSheet` scan of `placeCandidateOnSheets`: evaluate every
row with remaining quantity, prefer a row that can also host all remaining
candidates, then lowest whole-sheet cost, then lowest waste. -/
def bestNewAux (candidate : Candidate) (rowUsage : UsageMap)
    (remainingCandidates : List Candidate) :
    List SheetInventoryRow → Option BestNewSheet → Option BestNewSheet
  | [], best => best
  | row :: rest, best =>
    if rowAtCapacity row (getUsage rowUsage row.id) then
      bestNewAux candidate rowUsage remainingCandidates rest best
    else
      match tryPlaceCandidate (freshInstance row (getUsage rowUsage row.id)) candidate with
      | none => bestNewAux candidate rowUsage remainingCandidates rest best
      | some attempt =>
        bestNewAux candidate rowUsage remainingCandidates rest
          (if betterNewSheet
              (canFitCandidatesOnSingleSheet row (candidate :: remainingCandidates))
              (getSheetCost row.width row.height row.costPerSqft)
              (Q.qmax Q.zero (Q.sub (Q.mul row.width row.height) (sumArea attempt)))
              best then
            some ⟨row, getUsage rowUsage row.id, attempt,
              getSheetCost row.width row.height row.costPerSqft,
              Q.qmax Q.zero (Q.sub (Q.mul row.width row.height) (sumArea attempt)),
              canFitCandidatesOnSingleSheet row (candidate :: remainingCandidates)⟩
          else best)

/-- `placeCandidateOnSheets` from the source.  Returns the updated open
instances, the updated row usage and the committed placements, or `none`
when the candidate fits nowhere (in which case nothing is mutated). -/
def placeCandidateOnSheets (candidate : Candidate)
    (sheetInstances : List SheetInstance) (sheetRows : List SheetInventoryRow)
    (rowUsage : UsageMap) (remainingCandidates : List Candidate) :
    Option (List SheetInstance × UsageMap × List Placement) :=
  match bestExistingAux candidate sheetInstances 0 none with
  | some (i, attempt, _) =>
    some (pushAttemptAt sheetInstances i attempt, rowUsage, attempt)
  | none =>
    match bestNewAux candidate rowUsage remainingCandidates sheetRows none with
    | some b =>
      some (sheetInstances ++ [pushAttempt (freshInstance b.row b.usage) b.attempt],
        setUsage rowUsage b.row.id (b.usage + 1), b.attempt)
    | none => none

/-- The mutable state of the placement loop in `runPlanterSolver`. -/
structure SolverState where
  sheetInstances : List SheetInstance
  rowUsage : UsageMap
  placements : List Placement
  placedPanels : List String
  bundleSavings : Q

/-- The initial solver state. -/
def initialSolverState : SolverState :=
  { sheetInstances := [], rowUsage := [], placements := [], placedPanels := [],
    bundleSavings := Q.zero }

/-- One iteration of the placement loop: skip the candidate if any of its
panels is already placed, otherwise attempt placement (with the not-yet-
placed remainder of the queue as `remainingCandidates`) and commit. -/
def stepCandidate (sheetRows : List SheetInventoryRow) (s : SolverState)
    (candidate : Candidate) (rest : List Candidate) : SolverState :=
  if candidate.panels.any (fun p => s.placedPanels.contains p.id) then s
  else
    match placeCandidateOnSheets candidate s.sheetInstances sheetRows s.rowUsage
        (rest.filter
          (fun queued => queued.panels.all (fun p => !s.placedPanels.contains p.id))) with
    | none => s
    | some out =>
      { sheetInstances := out.1
        rowUsage := out.2.1
        placements := s.placements ++ out.2.2
        placedPanels := s.placedPanels ++ (out.2.2).map (fun p => p.panelId)
        bundleSavings := Q.add s.bundleSavings candidate.bundleSavings }

/-- The placement loop over the candidate queue. -/
def runQueue (sheetRows : List SheetInventoryRow) :
    SolverState → List Candidate → SolverState
  | s, [] => s
  | s, c :: rest => runQueue sheetRows (stepCandidate sheetRows s c rest) rest

/-- The sheet usage summary derived from an instance
(`areaUsedSqft = usedAreaIn2 / 144`). -/
def usageOfInstance (inst : SheetInstance) : SheetInstanceUsage :=
  { id := inst.id, rowId := inst.rowId, name := inst.name, width := inst.width,
    height := inst.height, costPerSqft := inst.costPerSqft,
    placements := inst.placements, areaUsedSqft := Q.div144 inst.usedAreaIn2 }

/-- `options?.inventory ?? DEFAULT_SHEET_INVENTORY`. -/
def resolveInventory (options : Option SolverOptions) : List SheetInventoryRow :=
  match options with
  | some o => match o.inventory with
    | some inv => inv
    | none => defaultSheetInventory
  | none => defaultSheetInventory

/-- `options?.linerHeightPercent ?? LINER_HEIGHT_PERCENT`. -/
def resolveLinerHeightPercent (options : Option SolverOptions) : Q :=
  match options with
  | some o => match o.linerHeightPercent with
    | some p => p
    | none => linerHeightPercentDefault
  | none => linerHeightPercentDefault

/-- Everything `runPlanterSolver` does after the empty-inventory check:
build panels and candidates, run the placement loop, aggregate costs. -/
def solveWithRows (planterInput : PlanterInput)
    (fabricationDims : FabricationDimensions)
    (breakdowns : List CostBreakdownPreview) (linerHeightPercent : Q)
    (sheetRows : List SheetInventoryRow) (cheapestCostPerSqft : Q)
    (now : String) : SolverResult :=
  let panels := buildPanels fabricationDims planterInput linerHeightPercent
  let candidateQueue := buildCandidateQueue panels cheapestCostPerSqft
  let finalState := runQueue sheetRows initialSolverState candidateQueue
  let sheetUsages := finalState.sheetInstances.map usageOfInstance
  let materialAreaSqft := finalState.placements.foldl
    (fun total p => Q.add total (Q.div144 (Q.mul p.width p.height))) Q.zero
  let totalMaterialCost := sheetUsages.foldl
    (fun total u => Q.add total (Q.mul (Q.div144 (Q.mul u.width u.height)) u.costPerSqft))
    Q.zero
  let fabricationRows := breakdowns.filter (fun row => row.category ≠ "Liner")
  let baseFabricationCost := fabricationRows.foldl (fun total row => Q.add total row.price)
    Q.zero
  let linerAreaSqft := Q.div144
    (((panels.filter (fun p => p.isLiner)).foldl
      (fun total p => Q.add total (Q.mul p.width p.height)) Q.zero))
  let linerRow := breakdowns.find? (fun row => row.category = "Liner")
  let linerExtraCost := match linerRow with
    | some row => row.price
    | none => Q.zero
  let totalFabricationCost :=
    Q.add (Q.add totalMaterialCost baseFabricationCost) linerExtraCost
  { placements := finalState.placements
    sheetUsages := sheetUsages
    totalMaterialCost := totalMaterialCost
    totalFabricationCost := totalFabricationCost
    materialAreaSqft := materialAreaSqft
    bundleSavings := finalState.bundleSavings
    linerAreaSqft := linerAreaSqft
    linerExtraCost := linerExtraCost
    solverTimestamp := now }

/-- `runPlanterSolver` from the source.  Throwing is modelled by
`Except.error`; the timestamp is an explicit argument (`new Date()` is an
effect external to the algorithm). -/
def runPlanterSolver (planterInput : PlanterInput)
    (fabricationDims : FabricationDimensions)
    (breakdowns : List CostBreakdownPreview) (options : Option SolverOptions)
    (now : String) : Except String SolverResult :=
  match buildOrderedSheetRows (resolveInventory options) with
  | [] => Except.error "No sheet inventory provided to the solver."
  | row :: rest =>
    Except.ok (solveWithRows planterInput fabricationDims breakdowns
      (resolveLinerHeightPercent options) (row :: rest)
      (rest.foldl (fun m r => Q.qmin m r.costPerSqft) row.costPerSqft) now)

/-!
Spec-side predicates (stated over the rational values the `Q` fractions
denote) and the concrete scenario inputs used by the spec's test cases.
-/

/-- Two axis-aligned rectangles overlap: their interiors intersect.
Rectangles that merely share an edge do not overlap. -/
def RectsOverlap (a b : Placement) : Prop :=
  b.x.val < a.x.val + a.width.val ∧ a.x.val < b.x.val + b.width.val ∧
  b.y.val < a.y.val + a.height.val ∧ a.y.val < b.y.val + b.height.val

/-- A placement lies fully within a `width × height` sheet face. -/
def InBounds (width height : ℚ) (p : Placement) : Prop :=
  0 ≤ p.x.val ∧ 0 ≤ p.y.val ∧
  p.x.val + p.width.val ≤ width ∧ p.y.val + p.height.val ≤ height

/-- The priority group of a candidate in the queue ordering: L-cut bundles,
then other bundles, then singles. -/
def candidateGroup (c : Candidate) : Nat :=
  if isLCutBundleCandidate c.id then 0 else if c.isBundle then 1 else 2

/-- The within-group tie-break chain: ascending `costImpact`, then
`totalArea`, then `longestSide`, then name (lexicographic). -/
def candidateChainLe (a b : Candidate) : Prop :=
  a.costImpact.val < b.costImpact.val ∨
  (a.costImpact.val = b.costImpact.val ∧
    (a.totalArea.val < b.totalArea.val ∨
    (a.totalArea.val = b.totalArea.val ∧
      (a.longestSide.val < b.longestSide.val ∨
      (a.longestSide.val = b.longestSide.val ∧ strLe a.name b.name = true)))))

/-- The full queue order the spec describes: strictly earlier group, or the
same group and the tie-break chain. -/
def candidateSpecLe (a b : Candidate) : Prop :=
  candidateGroup a < candidateGroup b ∨
  (candidateGroup a = candidateGroup b ∧ candidateChainLe a b)

/-- A placement is in bounds with strictly positive dimensions. -/
def GoodPlacement (width height : ℚ) (p : Placement) : Prop :=
  InBounds width height p ∧ 0 < p.width.val ∧ 0 < p.height.val

/-- A well-formed open sheet instance: every placement lies within its
face with positive dimensions, and no two placements overlap. -/
def SheetOK (inst : SheetInstance) : Prop :=
  (∀ p ∈ inst.placements, GoodPlacement inst.width.val inst.height.val p) ∧
  List.Pairwise (fun a b => ¬ RectsOverlap a b) inst.placements

/-- The instance's accounting: it hosts at least one placement and its
used-area accumulator is the sum of its placements' areas. -/
def InstanceAccounted (inst : SheetInstance) : Prop :=
  inst.placements ≠ [] ∧
  inst.usedAreaIn2.val = (inst.placements.map (fun p => p.width.val * p.height.val)).sum

/-- Every panel has strictly positive dimensions. -/
def GoodPanels (panels : List PanelBlueprint) : Prop :=
  ∀ bp ∈ panels, 0 < bp.width.val ∧ 0 < bp.height.val

/-- A candidate's panels have strictly positive dimensions. -/
def GoodCandidate (c : Candidate) : Prop :=
  ∀ bp ∈ c.panels, 0 < bp.width.val ∧ 0 < bp.height.val

/-- A candidate drawn from the panel list, with pairwise distinct panel
ids. -/
def CandidateWF (panels : List PanelBlueprint) (c : Candidate) : Prop :=
  (∀ bp ∈ c.panels, bp ∈ panels) ∧ (c.panels.map (fun p => p.id)).Nodup

/-- The inductive invariant of the placement loop. -/
structure SolverStateInv (rows : List SheetInventoryRow)
    (panels : List PanelBlueprint) (s : SolverState) : Prop where
  sheetsOK : ∀ inst ∈ s.sheetInstances, SheetOK inst
  accounted : ∀ inst ∈ s.sheetInstances, InstanceAccounted inst
  counts : ∀ id, (s.sheetInstances.map (fun inst => inst.rowId)).count id
    = getUsage s.rowUsage id
  usageBound : (rows.map (fun r => r.id)).Nodup →
    (∀ r ∈ rows, ∃ n : Nat, r.quantity.val = (n : ℚ)) →
    ∀ row ∈ rows, row.limitQuantity = true →
    ((getUsage s.rowUsage row.id : ℚ)) ≤ max 0 row.quantity.val
  placedIff : ∀ x, x ∈ s.placedPanels ↔ x ∈ s.placements.map (fun p => p.panelId)
  nodupIds : (s.placements.map (fun p => p.panelId)).Nodup
  fromPanels : ∀ p ∈ s.placements, ∃ bp ∈ panels,
    p.panelId = bp.id ∧ p.isLiner = bp.isLiner

/-- The scenario input of spec §8: `length=36, width=24, height=24,
lip=2.125`, all optional features disabled (the floor is on by default). -/
def scenarioInput : PlanterInput :=
  { length := Q.ofNat 36, width := Q.ofNat 24, height := Q.ofNat 24,
    marginPct := Q.zero, thickness := Q.zero, lip := ⟨17, 8, by norm_num⟩,
    linerEnabled := false, linerDepth := Q.zero, linerThickness := Q.zero,
    weightPlateEnabled := false, floorEnabled := true, shelfEnabled := false }

/-- The fabrication envelope of the scenario input. -/
def scenarioFab : FabricationDimensions := buildFabricationDimensions scenarioInput

/-- The scenario inventory row: one 48×96 sheet type at $2.73/sqft,
quantity 10. -/
def scenarioRow : SheetInventoryRow :=
  { id := "sheet-4x8-2-73", name := "4x8 at 2.73", width := Q.ofNat 48,
    height := Q.ofNat 96, costPerSqft := ⟨273, 100, by norm_num⟩,
    quantity := Q.ofNat 10, limitQuantity := true }

/-- Options carrying the scenario inventory. -/
def scenarioOptions : SolverOptions :=
  { inventory := some [scenarioRow], linerHeightPercent := none }

/-- The solver run of spec §8's minimal-box scenario. -/
def scenarioRun : Except String SolverResult :=
  runPlanterSolver scenarioInput scenarioFab [] (some scenarioOptions) "2026-01-01"

/-- The starved inventory row of spec §8: a single 10×10 sheet with
`limitQuantity = true, quantity = 1`, too small for even the smallest
panel of the scenario box. -/
def starvedRow : SheetInventoryRow :=
  { id := "tiny-sheet", name := "tiny", width := Q.ofNat 10, height := Q.ofNat 10,
    costPerSqft := Q.ofNat 3, quantity := Q.ofNat 1, limitQuantity := true }

/-- Options carrying only the starved row. -/
def starvedOptions : SolverOptions :=
  { inventory := some [starvedRow], linerHeightPercent := none }

/-- The solver run on the starved inventory. -/
def starvedRun : Except String SolverResult :=
  runPlanterSolver scenarioInput scenarioFab [] (some starvedOptions) "2026-01-01"

/-- A liner-collapse input: liner enabled with `linerDepth = width`, so the
inner width resolves to `0`. -/
def linerCollapseInput : PlanterInput :=
  { scenarioInput with linerEnabled := true, linerDepth := Q.ofNat 24 }

/-- The solver run on the liner-collapse input. -/
def linerCollapseRun : Except String SolverResult :=
  runPlanterSolver linerCollapseInput
    (buildFabricationDimensions linerCollapseInput)
    [⟨"Weld", Q.ofNat 100⟩, ⟨"Liner", Q.ofNat 55⟩] (some scenarioOptions) "2026-01-01"

/-- The result payload of the minimal-box scenario run (definitionally the
`Except.ok` payload of `scenarioRun`). -/
def scenarioResult : SolverResult :=
  solveWithRows scenarioInput scenarioFab [] linerHeightPercentDefault
    [scenarioRow] scenarioRow.costPerSqft "2026-01-01"

/-- The result payload of the liner-collapse run. -/
def linerCollapseResult : SolverResult :=
  solveWithRows linerCollapseInput (buildFabricationDimensions linerCollapseInput)
    [⟨"Weld", Q.ofNat 100⟩, ⟨"Liner", Q.ofNat 55⟩] linerHeightPercentDefault
    [scenarioRow] scenarioRow.costPerSqft "2026-01-01"

/-! ### Transfer lemmas for the numeric and string layers -/

theorem Q.den_cast_pos (a : Q) : (0 : ℚ) < (a.den : ℚ) := by
  exact_mod_cast a.den_pos

theorem Q.den_cast_ne (a : Q) : ((a.den : ℚ)) ≠ 0 := ne_of_gt a.den_cast_pos

@[simp] theorem Q.val_ofInt (n : Int) : (ofInt n).val = (n : ℚ) := by
  simp [ofInt, val]

@[simp] theorem Q.val_ofNat (n : Nat) : (ofNat n).val = (n : ℚ) := by
  simp [ofNat, val]

@[simp] theorem Q.val_zero : zero.val = 0 := by simp [zero]

@[simp] theorem Q.val_add (a b : Q) : (add a b).val = a.val + b.val := by
  unfold add val
  rw [div_add_div _ _ a.den_cast_ne b.den_cast_ne]
  push_cast
  ring_nf

@[simp] theorem Q.val_sub (a b : Q) : (sub a b).val = a.val - b.val := by
  unfold sub val
  rw [div_sub_div _ _ a.den_cast_ne b.den_cast_ne]
  push_cast
  ring_nf

@[simp] theorem Q.val_mul (a b : Q) : (mul a b).val = a.val * b.val := by
  unfold mul val
  rw [div_mul_div_comm]
  push_cast
  ring_nf

@[simp] theorem Q.val_div144 (a : Q) : (div144 a).val = a.val / 144 := by
  unfold div144 val
  rw [div_div]
  push_cast
  ring_nf

theorem Q.qeq_iff (a b : Q) : qeq a b = true ↔ a.val = b.val := by
  unfold qeq val
  rw [decide_eq_true_iff, div_eq_div_iff a.den_cast_ne b.den_cast_ne]
  exact_mod_cast Iff.rfl

theorem Q.qle_iff (a b : Q) : qle a b = true ↔ a.val ≤ b.val := by
  unfold qle val
  rw [decide_eq_true_iff, div_le_div_iff a.den_cast_pos b.den_cast_pos]
  exact_mod_cast Iff.rfl

theorem Q.qlt_iff (a b : Q) : qlt a b = true ↔ a.val < b.val := by
  unfold qlt val
  rw [decide_eq_true_iff, div_lt_div_iff a.den_cast_pos b.den_cast_pos]
  exact_mod_cast Iff.rfl

theorem Q.qeq_false_iff (a b : Q) : qeq a b = false ↔ a.val ≠ b.val := by
  rw [← Bool.not_eq_true, not_iff_not]
  exact qeq_iff a b

theorem Q.qle_false_iff (a b : Q) : qle a b = false ↔ b.val < a.val := by
  rw [← Bool.not_eq_true, not_iff_not.mpr (qle_iff a b), not_le]

theorem Q.qlt_false_iff (a b : Q) : qlt a b = false ↔ b.val ≤ a.val := by
  rw [← Bool.not_eq_true, not_iff_not.mpr (qlt_iff a b), not_lt]

@[simp] theorem Q.val_qmax (a b : Q) : (qmax a b).val = max a.val b.val := by
  unfold qmax
  by_cases h : qle a b = true
  · rw [if_pos h, max_eq_right ((qle_iff a b).mp h)]
  · have h' := (qle_false_iff a b).mp (Bool.not_eq_true _ ▸ h)
    rw [if_neg h, max_eq_left (le_of_lt h')]

@[simp] theorem Q.val_qmin (a b : Q) : (qmin a b).val = min a.val b.val := by
  unfold qmin
  by_cases h : qle a b = true
  · rw [if_pos h, min_eq_left ((qle_iff a b).mp h)]
  · have h' := (qle_false_iff a b).mp (Bool.not_eq_true _ ▸ h)
    rw [if_neg h, min_eq_right (le_of_lt h')]

theorem charsLe_total : ∀ a b : List Char, charsLe a b = true ∨ charsLe b a = true
  | [], _ => Or.inl rfl
  | _ :: _, [] => Or.inr rfl
  | c :: cs, d :: ds => by
    by_cases h1 : c.toNat < d.toNat
    · exact Or.inl (by simp [charsLe, h1])
    · by_cases h2 : d.toNat < c.toNat
      · refine Or.inr ?_
        simp only [charsLe, if_pos h2]
      · rcases charsLe_total cs ds with h | h
        · exact Or.inl (by simp [charsLe, h1, h2, h])
        · exact Or.inr (by simp [charsLe, h1, h2, h])

theorem charsLe_trans : ∀ a b c : List Char,
    charsLe a b = true → charsLe b c = true → charsLe a c = true
  | [], _, _ => by intro _ _; rfl
  | x :: xs, [], _ => by intro h _; simp [charsLe] at h
  | x :: xs, y :: ys, [] => by intro _ h; simp [charsLe] at h
  | x :: xs, y :: ys, z :: zs => by
    intro h1 h2
    simp only [charsLe] at h1 h2 ⊢
    by_cases hxy : x.toNat < y.toNat
    · by_cases hyz : y.toNat < z.toNat
      · simp [Nat.lt_trans hxy hyz]
      · simp only [hyz, if_false] at h2
        by_cases hzy : z.toNat < y.toNat
        · simp [hzy] at h2
        · have : y.toNat = z.toNat := Nat.le_antisymm (Nat.le_of_not_lt hzy) (Nat.le_of_not_lt hyz)
          simp [this ▸ hxy]
    · simp only [hxy, if_false] at h1
      by_cases hyx : y.toNat < x.toNat
      · simp [hyx] at h1
      · have hxy' : x.toNat = y.toNat := Nat.le_antisymm (Nat.le_of_not_lt hyx) (Nat.le_of_not_lt hxy)
        by_cases hyz : y.toNat < z.toNat
        · simp [hxy' ▸ hyz]
        · simp only [hyz, if_false] at h2
          by_cases hzy : z.toNat < y.toNat
          · simp [hzy] at h2
          · have hyz' : y.toNat = z.toNat :=
              Nat.le_antisymm (Nat.le_of_not_lt hzy) (Nat.le_of_not_lt hyz)
            have hxz : x.toNat = z.toNat := hxy'.trans hyz'
            simp only [if_neg hzy] at h2
            simp only [if_neg hyx] at h1
            have hnlt : ¬ x.toNat < z.toNat := by rw [hxz]; exact Nat.lt_irrefl _
            have hnlt' : ¬ z.toNat < x.toNat := by rw [hxz]; exact Nat.lt_irrefl _
            rw [if_neg hnlt, if_neg hnlt']
            exact charsLe_trans xs ys zs h1 h2

theorem strLe_total (a b : String) : strLe a b = true ∨ strLe b a = true :=
  charsLe_total a.data b.data

theorem strLe_trans {a b c : String} (h1 : strLe a b = true) (h2 : strLe b c = true) :
    strLe a c = true :=
  charsLe_trans a.data b.data c.data h1 h2

theorem Q.val_pos_of_qlt_zero {a : Q} (h : Q.qlt Q.zero a = true) : 0 < a.val := by
  have := (Q.qlt_iff Q.zero a).mp h
  simpa using this

theorem Q.val_ofNat_cast (n : Nat) : (Q.ofNat n).val = (n : ℚ) := Q.val_ofNat n

/-- Folding `+ f x` over a list adds the sum of the values. -/
theorem foldl_qadd_val {α : Type} (f : α → Q) (l : List α) (init : Q) :
    (l.foldl (fun t x => Q.add t (f x)) init).val
      = init.val + (l.map (fun x => (f x).val)).sum := by
  induction l generalizing init with
  | nil => simp
  | cons a rest ih =>
    simp only [List.foldl_cons, List.map_cons, List.sum_cons]
    rw [ih]
    simp [add_assoc]

/-- The value of the used-area accumulator is the sum of placement areas. -/
theorem sumArea_val (ps : List Placement) :
    (sumArea ps).val = (ps.map (fun p => p.width.val * p.height.val)).sum := by
  unfold sumArea
  rw [foldl_qadd_val (fun p => Q.mul p.width p.height) ps Q.zero]
  simp

/-- `placementsOverlap` decides `RectsOverlap`. -/
theorem placementsOverlap_iff (a b : Placement) :
    placementsOverlap a b = true ↔ RectsOverlap a b := by
  unfold placementsOverlap rectanglesOverlap RectsOverlap
  simp only [Bool.not_eq_true', Bool.or_eq_false_iff, Bool.not_eq_true]
  constructor
  · rintro ⟨⟨⟨h1, h2⟩, h3⟩, h4⟩
    exact ⟨by simpa using (Q.qle_false_iff _ _).mp h1,
      by simpa using (Q.qle_false_iff _ _).mp h2,
      by simpa using (Q.qle_false_iff _ _).mp h3,
      by simpa using (Q.qle_false_iff _ _).mp h4⟩
  · rintro ⟨h1, h2, h3, h4⟩
    refine ⟨⟨⟨?_, ?_⟩, ?_⟩, ?_⟩ <;>
      · rw [Q.qle_false_iff]
        simpa [Q.val_add] using by assumption

/-- `isPlacementInsideSheet` decides `InBounds`. -/
theorem isPlacementInsideSheet_iff (sheet : SheetInstance) (p : Placement) :
    isPlacementInsideSheet sheet p = true ↔ InBounds sheet.width.val sheet.height.val p := by
  unfold isPlacementInsideSheet InBounds
  simp only [Bool.and_eq_true]
  rw [Q.qle_iff, Q.qle_iff, Q.qle_iff, Q.qle_iff]
  simp [and_assoc]

/-- The sorted row list is a permutation of the inventory, hence empty
exactly when the inventory is empty. -/
theorem buildOrderedSheetRows_perm (inventory : List SheetInventoryRow) :
    (buildOrderedSheetRows inventory).Perm inventory :=
  List.perm_insertionSort _ inventory

theorem buildOrderedSheetRows_nil_iff (inventory : List SheetInventoryRow) :
    buildOrderedSheetRows inventory = [] ↔ inventory = [] := by
  constructor
  · intro h
    exact ((h ▸ buildOrderedSheetRows_perm inventory).symm).eq_nil
  · intro h
    subst h
    rfl

/-- Case split on a successful run: the sorted rows were nonempty and the
result is `solveWithRows` on them. -/
theorem run_ok_cases (planterInput : PlanterInput) (fabricationDims : FabricationDimensions)
    (breakdowns : List CostBreakdownPreview) (options : Option SolverOptions)
    (now : String) (res : SolverResult)
    (h : runPlanterSolver planterInput fabricationDims breakdowns options now
      = Except.ok res) :
    ∃ row rest, buildOrderedSheetRows (resolveInventory options) = row :: rest ∧
      res = solveWithRows planterInput fabricationDims breakdowns
        (resolveLinerHeightPercent options) (row :: rest)
        (rest.foldl (fun m r => Q.qmin m r.costPerSqft) row.costPerSqft) now := by
  unfold runPlanterSolver at h
  cases hrows : buildOrderedSheetRows (resolveInventory options) with
  | nil => rw [hrows] at h; exact absurd h (by simp)
  | cons row rest =>
    rw [hrows] at h
    simp only [Except.ok.injEq] at h
    exact ⟨row, rest, rfl, h.symm⟩

/-- The sheet usages of a solve are the final open instances, summarised. -/
theorem solveWithRows_sheetUsages (planterInput : PlanterInput)
    (fabricationDims : FabricationDimensions) (breakdowns : List CostBreakdownPreview)
    (linerHeightPercent : Q) (sheetRows : List SheetInventoryRow)
    (cheapestCostPerSqft : Q) (now : String) :
    (solveWithRows planterInput fabricationDims breakdowns linerHeightPercent
      sheetRows cheapestCostPerSqft now).sheetUsages
      = (runQueue sheetRows initialSolverState
          (buildCandidateQueue
            (buildPanels fabricationDims planterInput linerHeightPercent)
            cheapestCostPerSqft)).sheetInstances.map usageOfInstance := rfl

/-- The placements of a solve are the final state's placements. -/
theorem solveWithRows_placements (planterInput : PlanterInput)
    (fabricationDims : FabricationDimensions) (breakdowns : List CostBreakdownPreview)
    (linerHeightPercent : Q) (sheetRows : List SheetInventoryRow)
    (cheapestCostPerSqft : Q) (now : String) :
    (solveWithRows planterInput fabricationDims breakdowns linerHeightPercent
      sheetRows cheapestCostPerSqft now).placements
      = (runQueue sheetRows initialSolverState
          (buildCandidateQueue
            (buildPanels fabricationDims planterInput linerHeightPercent)
            cheapestCostPerSqft)).placements := rfl

/-- The material cost fold of a solve, verbatim. -/
theorem solveWithRows_totalMaterialCost (planterInput : PlanterInput)
    (fabricationDims : FabricationDimensions) (breakdowns : List CostBreakdownPreview)
    (linerHeightPercent : Q) (sheetRows : List SheetInventoryRow)
    (cheapestCostPerSqft : Q) (now : String) :
    (solveWithRows planterInput fabricationDims breakdowns linerHeightPercent
      sheetRows cheapestCostPerSqft now).totalMaterialCost
      = ((solveWithRows planterInput fabricationDims breakdowns linerHeightPercent
          sheetRows cheapestCostPerSqft now).sheetUsages).foldl
        (fun total u => Q.add total (Q.mul (Q.div144 (Q.mul u.width u.height)) u.costPerSqft))
        Q.zero := rfl

/-- The liner surcharge of a solve is the price of the first `Liner`
breakdown row, or `0`. -/
theorem solveWithRows_linerExtraCost (planterInput : PlanterInput)
    (fabricationDims : FabricationDimensions) (breakdowns : List CostBreakdownPreview)
    (linerHeightPercent : Q) (sheetRows : List SheetInventoryRow)
    (cheapestCostPerSqft : Q) (now : String) :
    (solveWithRows planterInput fabricationDims breakdowns linerHeightPercent
      sheetRows cheapestCostPerSqft now).linerExtraCost
      = (match breakdowns.find? (fun row => row.category = "Liner") with
        | some row => row.price
        | none => Q.zero) := rfl

/-- The total fabrication cost of a solve, verbatim. -/
theorem solveWithRows_totalFabricationCost (planterInput : PlanterInput)
    (fabricationDims : FabricationDimensions) (breakdowns : List CostBreakdownPreview)
    (linerHeightPercent : Q) (sheetRows : List SheetInventoryRow)
    (cheapestCostPerSqft : Q) (now : String) :
    (solveWithRows planterInput fabricationDims breakdowns linerHeightPercent
      sheetRows cheapestCostPerSqft now).totalFabricationCost
      = Q.add (Q.add
          ((solveWithRows planterInput fabricationDims breakdowns linerHeightPercent
            sheetRows cheapestCostPerSqft now).totalMaterialCost)
          ((breakdowns.filter (fun row => row.category ≠ "Liner")).foldl
            (fun total row => Q.add total row.price) Q.zero))
        ((solveWithRows planterInput fabricationDims breakdowns linerHeightPercent
          sheetRows cheapestCostPerSqft now).linerExtraCost) := rfl

/-- The liner area of a solve, verbatim. -/
theorem solveWithRows_linerAreaSqft (planterInput : PlanterInput)
    (fabricationDims : FabricationDimensions) (breakdowns : List CostBreakdownPreview)
    (linerHeightPercent : Q) (sheetRows : List SheetInventoryRow)
    (cheapestCostPerSqft : Q) (now : String) :
    (solveWithRows planterInput fabricationDims breakdowns linerHeightPercent
      sheetRows cheapestCostPerSqft now).linerAreaSqft
      = Q.div144
        (((buildPanels fabricationDims planterInput linerHeightPercent).filter
          (fun p => p.isLiner)).foldl
          (fun total p => Q.add total (Q.mul p.width p.height)) Q.zero) := rfl

/-- The material area of a solve, verbatim. -/
theorem solveWithRows_materialAreaSqft (planterInput : PlanterInput)
    (fabricationDims : FabricationDimensions) (breakdowns : List CostBreakdownPreview)
    (linerHeightPercent : Q) (sheetRows : List SheetInventoryRow)
    (cheapestCostPerSqft : Q) (now : String) :
    (solveWithRows planterInput fabricationDims breakdowns linerHeightPercent
      sheetRows cheapestCostPerSqft now).materialAreaSqft
      = ((solveWithRows planterInput fabricationDims breakdowns linerHeightPercent
          sheetRows cheapestCostPerSqft now).placements).foldl
        (fun total p => Q.add total (Q.div144 (Q.mul p.width p.height))) Q.zero := rfl

/-- C7: `runPlanterSolver` fails (returns an error, producing no result)
if and only if the resolved sheet inventory is empty; for every nonempty
inventory the call returns a result, so the emptiness check is the only
hard input validation the core performs. -/
theorem runPlanterSolver_error_iff_empty_inventory
    (planterInput : PlanterInput) (fabricationDims : FabricationDimensions)
    (breakdowns : List CostBreakdownPreview) (options : Option SolverOptions)
    (now : String) :
    (∃ e, runPlanterSolver planterInput fabricationDims breakdowns options now
      = Except.error e) ↔ resolveInventory options = [] := by
  rw [← buildOrderedSheetRows_nil_iff]
  unfold runPlanterSolver
  cases hrows : buildOrderedSheetRows (resolveInventory options) with
  | nil => simp
  | cons row rest => simp

/-- C3: the total material cost is the full face cost of every opened
sheet instance (`width*height/144 * costPerSqft`, not pro-rated by unused
area), and the total fabrication cost is exactly material cost plus the
non-Liner breakdown prices plus the Liner breakdown price (the latter
reported as `linerExtraCost`). -/
theorem totalCosts_spec (planterInput : PlanterInput)
    (fabricationDims : FabricationDimensions)
    (breakdowns : List CostBreakdownPreview) (options : Option SolverOptions)
    (now : String) (res : SolverResult)
    (h : runPlanterSolver planterInput fabricationDims breakdowns options now
      = Except.ok res) :
    res.totalMaterialCost.val
      = (res.sheetUsages.map
          (fun u => u.width.val * u.height.val / 144 * u.costPerSqft.val)).sum ∧
    res.totalFabricationCost.val
      = res.totalMaterialCost.val
        + ((breakdowns.filter (fun row => row.category ≠ "Liner")).map
            (fun row => row.price.val)).sum
        + res.linerExtraCost.val ∧
    res.linerExtraCost.val
      = (match breakdowns.find? (fun row => row.category = "Liner") with
        | some row => row.price.val
        | none => 0) := by
  obtain ⟨row, rest, -, hres⟩ := run_ok_cases planterInput fabricationDims breakdowns
    options now res h
  subst hres
  refine ⟨?_, ?_, ?_⟩
  · rw [solveWithRows_totalMaterialCost]
    rw [foldl_qadd_val
      (fun (u : SheetInstanceUsage) => Q.mul (Q.div144 (Q.mul u.width u.height)) u.costPerSqft)
      _ Q.zero]
    simp
  · rw [solveWithRows_totalFabricationCost]
    rw [Q.val_add, Q.val_add]
    rw [foldl_qadd_val (fun (row : CostBreakdownPreview) => row.price) _ Q.zero]
    simp
  · rw [solveWithRows_linerExtraCost]
    cases breakdowns.find? (fun row => row.category = "Liner") with
    | none => simp
    | some r => simp

theorem candidateChainLe_trans {a b c : Candidate}
    (h1 : candidateChainLe a b) (h2 : candidateChainLe b c) : candidateChainLe a c := by
  unfold candidateChainLe at h1 h2 ⊢
  rcases h1 with h1 | ⟨e1, h1⟩
  · rcases h2 with h2 | ⟨e2, h2⟩
    · exact Or.inl (lt_trans h1 h2)
    · exact Or.inl (e2 ▸ h1)
  · rcases h2 with h2 | ⟨e2, h2⟩
    · exact Or.inl (e1 ▸ h2)
    · refine Or.inr ⟨e1.trans e2, ?_⟩
      rcases h1 with h1 | ⟨f1, h1⟩
      · rcases h2 with h2 | ⟨f2, h2⟩
        · exact Or.inl (lt_trans h1 h2)
        · exact Or.inl (f2 ▸ h1)
      · rcases h2 with h2 | ⟨f2, h2⟩
        · exact Or.inl (f1 ▸ h2)
        · refine Or.inr ⟨f1.trans f2, ?_⟩
          rcases h1 with h1 | ⟨g1, h1⟩
          · rcases h2 with h2 | ⟨g2, h2⟩
            · exact Or.inl (lt_trans h1 h2)
            · exact Or.inl (g2 ▸ h1)
          · rcases h2 with h2 | ⟨g2, h2⟩
            · exact Or.inl (g1 ▸ h2)
            · exact Or.inr ⟨g1.trans g2, strLe_trans h1 h2⟩

theorem candidateChainLe_total (a b : Candidate) :
    candidateChainLe a b ∨ candidateChainLe b a := by
  unfold candidateChainLe
  rcases lt_trichotomy a.costImpact.val b.costImpact.val with h | h | h
  · exact Or.inl (Or.inl h)
  · rcases lt_trichotomy a.totalArea.val b.totalArea.val with h' | h' | h'
    · exact Or.inl (Or.inr ⟨h, Or.inl h'⟩)
    · rcases lt_trichotomy a.longestSide.val b.longestSide.val with h'' | h'' | h''
      · exact Or.inl (Or.inr ⟨h, Or.inr ⟨h', Or.inl h''⟩⟩)
      · rcases strLe_total a.name b.name with hn | hn
        · exact Or.inl (Or.inr ⟨h, Or.inr ⟨h', Or.inr ⟨h'', hn⟩⟩⟩)
        · exact Or.inr (Or.inr ⟨h.symm, Or.inr ⟨h'.symm, Or.inr ⟨h''.symm, hn⟩⟩⟩)
      · exact Or.inr (Or.inr ⟨h.symm, Or.inr ⟨h'.symm, Or.inl h''⟩⟩)
    · exact Or.inr (Or.inr ⟨h.symm, Or.inl h'⟩)
  · exact Or.inr (Or.inl h)

/-- A `cond` on a `qeq` test, with the chain meanings of both branches,
packaged as one equivalence step. -/
theorem cond_qeq_chain {x y : Q} {t e : Bool} (Pt Pe : Prop)
    (ht : x.val = y.val → (t = true ↔ Pt)) (he : x.val ≠ y.val → (e = true ↔ Pe)) :
    (cond (Q.qeq x y) t e) = true ↔
      ((x.val = y.val ∧ Pt) ∨ (x.val ≠ y.val ∧ Pe)) := by
  cases hx : Q.qeq x y with
  | true =>
    have hv := (Q.qeq_iff x y).mp hx
    simp only [cond_true]
    rw [ht hv]
    constructor
    · intro h; exact Or.inl ⟨hv, h⟩
    · rintro (⟨-, h⟩ | ⟨hne, -⟩)
      · exact h
      · exact absurd hv hne
  | false =>
    have hv := (Q.qeq_false_iff x y).mp hx
    simp only [cond_false]
    rw [he hv]
    constructor
    · intro h; exact Or.inr ⟨hv, h⟩
    · rintro (⟨heq, -⟩ | ⟨-, h⟩)
      · exact absurd heq hv
      · exact h

/-- The comparator `compareCandidates(a,b) <= 0`, characterised: either `a`
is an L-cut and `b` is not, or both flags agree and the tie-break chain
holds. -/
theorem compareCandidatesLe_iff (a b : Candidate) :
    compareCandidatesLe a b = true ↔
      ((isLCutBundleCandidate a.id = true ∧ isLCutBundleCandidate b.id = false) ∨
        (isLCutBundleCandidate a.id = isLCutBundleCandidate b.id ∧ candidateChainLe a b)) := by
  have hchain : (cond (Q.qeq a.costImpact b.costImpact)
      (cond (Q.qeq a.totalArea b.totalArea)
        (cond (Q.qeq a.longestSide b.longestSide)
          (strLe a.name b.name)
          (Q.qle a.longestSide b.longestSide))
        (Q.qle a.totalArea b.totalArea))
      (Q.qle a.costImpact b.costImpact)) = true ↔ candidateChainLe a b := by
    unfold candidateChainLe
    rw [cond_qeq_chain
      (a.totalArea.val = b.totalArea.val ∧
        (a.longestSide.val = b.longestSide.val ∧ strLe a.name b.name = true ∨
          a.longestSide.val ≠ b.longestSide.val ∧ a.longestSide.val < b.longestSide.val) ∨
        a.totalArea.val ≠ b.totalArea.val ∧ a.totalArea.val < b.totalArea.val)
      (a.costImpact.val < b.costImpact.val)]
    · constructor
      · rintro (⟨he, ⟨h2, h3⟩ | ⟨h2, h3⟩⟩ | ⟨hne, hlt⟩)
        · rcases h3 with ⟨h3e, h3⟩ | ⟨h3ne, h3⟩
          · exact Or.inr ⟨he, Or.inr ⟨h2, Or.inr ⟨h3e, h3⟩⟩⟩
          · exact Or.inr ⟨he, Or.inr ⟨h2, Or.inl h3⟩⟩
        · exact Or.inr ⟨he, Or.inl h3⟩
        · exact Or.inl hlt
      · rintro (h | ⟨he, h | ⟨h2, h | ⟨h3, hs⟩⟩⟩)
        · exact Or.inr ⟨ne_of_lt h, h⟩
        · exact Or.inl ⟨he, Or.inr ⟨ne_of_lt h, h⟩⟩
        · exact Or.inl ⟨he, Or.inl ⟨h2, Or.inr ⟨ne_of_lt h, h⟩⟩⟩
        · exact Or.inl ⟨he, Or.inl ⟨h2, Or.inl ⟨h3, hs⟩⟩⟩
    · intro hta
      rw [cond_qeq_chain
        (a.longestSide.val = b.longestSide.val ∧ strLe a.name b.name = true ∨
          a.longestSide.val ≠ b.longestSide.val ∧ a.longestSide.val < b.longestSide.val)
        (a.totalArea.val < b.totalArea.val)]
      · intro hls
        rw [cond_qeq_chain (strLe a.name b.name = true)
          (a.longestSide.val < b.longestSide.val)]
        · intro _; exact Iff.rfl
        · intro h; exact Q.qle_iff _ _ |>.trans
            ⟨fun hle => lt_of_le_of_ne hle h, le_of_lt⟩
      · intro h
        exact (Q.qle_iff _ _).trans ⟨fun hle => lt_of_le_of_ne hle h, le_of_lt⟩
    · intro h
      exact (Q.qle_iff _ _).trans ⟨fun hle => lt_of_le_of_ne hle h, le_of_lt⟩
  unfold compareCandidatesLe
  cases ha : isLCutBundleCandidate a.id <;> cases hb : isLCutBundleCandidate b.id
  · simpa using hchain
  · simp
  · simp
  · simpa using hchain

theorem compareCandidatesLe_total (a b : Candidate) :
    compareCandidatesLe a b = true ∨ compareCandidatesLe b a = true := by
  rw [compareCandidatesLe_iff, compareCandidatesLe_iff]
  cases ha : isLCutBundleCandidate a.id <;> cases hb : isLCutBundleCandidate b.id
  · rcases candidateChainLe_total a b with h | h
    · exact Or.inl (Or.inr ⟨rfl, h⟩)
    · exact Or.inr (Or.inr ⟨rfl, h⟩)
  · exact Or.inr (Or.inl ⟨rfl, rfl⟩)
  · exact Or.inl (Or.inl ⟨rfl, rfl⟩)
  · rcases candidateChainLe_total a b with h | h
    · exact Or.inl (Or.inr ⟨rfl, h⟩)
    · exact Or.inr (Or.inr ⟨rfl, h⟩)

theorem compareCandidatesLe_transitive {a b c : Candidate}
    (h1 : compareCandidatesLe a b = true) (h2 : compareCandidatesLe b c = true) :
    compareCandidatesLe a c = true := by
  rw [compareCandidatesLe_iff] at h1 h2 ⊢
  rcases h1 with ⟨ha, hb⟩ | ⟨hab, hch1⟩
  · rcases h2 with ⟨hb', -⟩ | ⟨hbc, -⟩
    · exact absurd hb' (hb ▸ Bool.false_ne_true)
    · exact Or.inl ⟨ha, hbc ▸ hb⟩
  · rcases h2 with ⟨hb', hc⟩ | ⟨hbc, hch2⟩
    · exact Or.inl ⟨hab.trans hb', hc⟩
    · exact Or.inr ⟨hab.trans hbc, candidateChainLe_trans hch1 hch2⟩

theorem isLCut_candidate_id_false (s : String) :
    isLCutBundleCandidate ("candidate-" ++ s) = false := by
  unfold isLCutBundleCandidate
  simp only [Bool.or_eq_false_iff, beq_eq_false_iff_ne, ne_eq]
  constructor <;> intro h <;>
    · have h2 := congrArg (fun t : String => t.data.head?) h
      dsimp only at h2
      rw [String.data_append] at h2
      rw [show "candidate-".data = 'c' :: "andidate-".data from rfl] at h2
      simp only [List.cons_append, List.head?_cons] at h2
      exact absurd h2 (by decide)

/-- `lookupPanel` returns an element of the list bearing the requested id. -/
theorem lookupPanel_spec (panels : List PanelBlueprint) (id : String)
    (p : PanelBlueprint) (h : lookupPanel panels id = some p) :
    p ∈ panels ∧ p.id = id := by
  unfold lookupPanel at h
  suffices hgen : ∀ (l : List PanelBlueprint) (acc : Option PanelBlueprint),
      l.foldl (fun acc q => if q.id = id then some q else acc) acc = some p →
      (p ∈ l ∧ p.id = id) ∨ acc = some p by
    rcases hgen panels none h with hok | hbad
    · exact hok
    · exact absurd hbad (by simp)
  intro l
  induction l with
  | nil => intro acc h; exact Or.inr h
  | cons q rest ih =>
    intro acc h
    simp only [List.foldl_cons] at h
    rcases ih _ h with ⟨hm, hid⟩ | hacc
    · exact Or.inl ⟨List.mem_cons_of_mem _ hm, hid⟩
    · by_cases hq : q.id = id
      · rw [if_pos hq] at hacc
        obtain rfl : q = p := by injection hacc
        exact Or.inl ⟨List.mem_cons_self _ _, hq⟩
      · rw [if_neg hq] at hacc
        exact Or.inr hacc

/-- Every bundle candidate is built by `mkBundleCandidate` from one
adjacency entry whose two panels resolve in the panel map. -/
theorem mem_bundleCandidates {panels : List PanelBlueprint} {baseCostPerSqft : Q}
    {c : Candidate} (hc : c ∈ (buildCandidates panels baseCostPerSqft).2) :
    ∃ entry ∈ bundleAdjacency, ∃ anchorPanel partnerPanel,
      lookupPanel panels entry.1 = some anchorPanel ∧
      lookupPanel panels entry.2.1 = some partnerPanel ∧
      c = mkBundleCandidate baseCostPerSqft entry.1 entry.2.1 entry.2.2
        anchorPanel partnerPanel := by
  unfold buildCandidates at hc
  simp only at hc
  suffices hgen : ∀ (l : List (String × String × String)),
      c ∈ l.foldr (fun entry acc =>
        match lookupPanel panels entry.1, lookupPanel panels entry.2.1 with
        | some anchorPanel, some partnerPanel =>
          mkBundleCandidate baseCostPerSqft entry.1 entry.2.1 entry.2.2
            anchorPanel partnerPanel :: acc
        | _, _ => acc) [] →
      ∃ entry ∈ l, ∃ anchorPanel partnerPanel,
        lookupPanel panels entry.1 = some anchorPanel ∧
        lookupPanel panels entry.2.1 = some partnerPanel ∧
        c = mkBundleCandidate baseCostPerSqft entry.1 entry.2.1 entry.2.2
          anchorPanel partnerPanel by
    exact hgen bundleAdjacency hc
  intro l
  induction l with
  | nil => intro h; exact absurd h (List.not_mem_nil c)
  | cons e rest ih =>
    intro h
    simp only [List.foldr_cons] at h
    cases h1 : lookupPanel panels e.1 with
    | none =>
      rw [h1] at h
      obtain ⟨entry, hmem, rest'⟩ := ih h
      exact ⟨entry, List.mem_cons_of_mem _ hmem, rest'⟩
    | some ap =>
      cases h2 : lookupPanel panels e.2.1 with
      | none =>
        rw [h1, h2] at h
        obtain ⟨entry, hmem, rest'⟩ := ih h
        exact ⟨entry, List.mem_cons_of_mem _ hmem, rest'⟩
      | some pp =>
        rw [h1, h2] at h
        rcases List.mem_cons.mp h with rfl | hmem
        · exact ⟨e, List.mem_cons_self _ _, ap, pp, h1, h2, rfl⟩
        · obtain ⟨entry, hmem', rest'⟩ := ih hmem
          exact ⟨entry, List.mem_cons_of_mem _ hmem', rest'⟩

/-- Every single candidate is `mkSingleCandidate` of a panel. -/
theorem mem_singleCandidates {panels : List PanelBlueprint} {baseCostPerSqft : Q}
    {c : Candidate} (hc : c ∈ (buildCandidates panels baseCostPerSqft).1) :
    ∃ p ∈ panels, c = mkSingleCandidate baseCostPerSqft p := by
  unfold buildCandidates at hc
  simp only [List.mem_map] at hc
  obtain ⟨p, hp, rfl⟩ := hc
  exact ⟨p, hp, rfl⟩

theorem single_group_two {panels : List PanelBlueprint} {baseCostPerSqft : Q}
    {c : Candidate} (hc : c ∈ (buildCandidates panels baseCostPerSqft).1) :
    candidateGroup c = 2 ∧ isLCutBundleCandidate c.id = false := by
  obtain ⟨p, -, rfl⟩ := mem_singleCandidates hc
  have hl : isLCutBundleCandidate (mkSingleCandidate baseCostPerSqft p).id = false :=
    isLCut_candidate_id_false p.id
  refine ⟨?_, hl⟩
  unfold candidateGroup
  rw [hl]
  simp [mkSingleCandidate]

theorem bundle_isBundle {panels : List PanelBlueprint} {baseCostPerSqft : Q}
    {c : Candidate} (hc : c ∈ (buildCandidates panels baseCostPerSqft).2) :
    c.isBundle = true := by
  obtain ⟨entry, -, ap, pp, -, -, rfl⟩ := mem_bundleCandidates hc
  rfl

theorem bundle_group_le_one {panels : List PanelBlueprint} {baseCostPerSqft : Q}
    {c : Candidate} (hc : c ∈ (buildCandidates panels baseCostPerSqft).2) :
    candidateGroup c ≤ 1 := by
  have hb := bundle_isBundle hc
  unfold candidateGroup
  cases hl : isLCutBundleCandidate c.id
  · rw [if_neg (by simp [hl]), if_pos hb]
  · rw [if_pos (by simp [hl])]
    exact Nat.zero_le 1

theorem bundle_group_eq {panels : List PanelBlueprint} {baseCostPerSqft : Q}
    {c : Candidate} (hc : c ∈ (buildCandidates panels baseCostPerSqft).2) :
    candidateGroup c = (if isLCutBundleCandidate c.id then 0 else 1) := by
  have hb := bundle_isBundle hc
  unfold candidateGroup
  cases hl : isLCutBundleCandidate c.id
  · simp [hb]
  · simp

/-- C5: the candidate queue is deterministic and fully ordered as the spec
states: all bundles precede all singles, the two L-cut bundles precede
every other bundle, and within each group candidates ascend by
`costImpact`, then `totalArea`, then `longestSide`, then name. -/
theorem candidateQueue_ordered (panels : List PanelBlueprint) (baseCostPerSqft : Q) :
    List.Pairwise candidateSpecLe (buildCandidateQueue panels baseCostPerSqft) := by
  haveI : IsTotal Candidate (fun a b => compareCandidatesLe a b = true) :=
    ⟨compareCandidatesLe_total⟩
  haveI : IsTrans Candidate (fun a b => compareCandidatesLe a b = true) :=
    ⟨fun _ _ _ => compareCandidatesLe_transitive⟩
  unfold buildCandidateQueue
  rw [List.pairwise_append]
  have memB := fun c (h : c ∈ (buildCandidates panels baseCostPerSqft).2.insertionSort
      (fun a b => compareCandidatesLe a b = true)) =>
    (List.perm_insertionSort (fun a b => compareCandidatesLe a b = true)
      (buildCandidates panels baseCostPerSqft).2).mem_iff.mp h
  have memS := fun c (h : c ∈ (buildCandidates panels baseCostPerSqft).1.insertionSort
      (fun a b => compareCandidatesLe a b = true)) =>
    (List.perm_insertionSort (fun a b => compareCandidatesLe a b = true)
      (buildCandidates panels baseCostPerSqft).1).mem_iff.mp h
  refine ⟨?_, ?_, ?_⟩
  · have hs := List.sorted_insertionSort (fun a b => compareCandidatesLe a b = true)
      (buildCandidates panels baseCostPerSqft).2
    refine List.Pairwise.imp_of_mem ?_ hs
    intro a b hma hmb hab
    have hba := bundle_group_eq (memB a hma)
    have hbb := bundle_group_eq (memB b hmb)
    rcases (compareCandidatesLe_iff a b).mp hab with ⟨haL, hbL⟩ | ⟨heq, hch⟩
    · left
      rw [hba, hbb, if_pos haL, if_neg (by simp [hbL])]
      exact Nat.zero_lt_one
    · right
      rw [hba, hbb, heq]
      exact ⟨rfl, hch⟩
  · have hs := List.sorted_insertionSort (fun a b => compareCandidatesLe a b = true)
      (buildCandidates panels baseCostPerSqft).1
    refine List.Pairwise.imp_of_mem ?_ hs
    intro a b hma hmb hab
    have hga := single_group_two (memS a hma)
    have hgb := single_group_two (memS b hmb)
    rcases (compareCandidatesLe_iff a b).mp hab with ⟨haL, -⟩ | ⟨-, hch⟩
    · exact absurd haL (hga.2 ▸ Bool.false_ne_true)
    · exact Or.inr ⟨hga.1.trans hgb.1.symm, hch⟩
  · intro a hma b hmb
    left
    have h1 := bundle_group_le_one (memB a hma)
    have h2 := (single_group_two (memS b hmb)).1
    omega

theorem mem_getOrientations {w h : Q} {o : PanelOrientation}
    (ho : o ∈ getOrientations w h) :
    (o.width = w ∧ o.height = h) ∨ (o.width = h ∧ o.height = w) := by
  unfold getOrientations at ho
  by_cases he : Q.qeq w h = true
  · rw [if_pos he] at ho
    rcases List.mem_singleton.mp ho with rfl
    exact Or.inl ⟨rfl, rfl⟩
  · rw [if_neg he] at ho
    rcases List.mem_cons.mp ho with rfl | ho'
    · exact Or.inl ⟨rfl, rfl⟩
    · rcases List.mem_singleton.mp ho' with rfl
      exact Or.inr ⟨rfl, rfl⟩

theorem dedupQAux_subset {a : Q} : ∀ {seen l : List Q}, a ∈ dedupQAux seen l → a ∈ l := by
  intro seen l
  induction l generalizing seen with
  | nil => intro h; exact absurd h (List.not_mem_nil a)
  | cons b rest ih =>
    intro h
    unfold dedupQAux at h
    by_cases hb : (seen.any (fun x => Q.qeq x b)) = true
    · rw [if_pos hb] at h
      exact List.mem_cons_of_mem _ (ih h)
    · rw [if_neg hb] at h
      rcases List.mem_cons.mp h with rfl | h'
      · exact List.mem_cons_self _ _
      · exact List.mem_cons_of_mem _ (ih h')

theorem dedupQ_subset {a : Q} {l : List Q} (h : a ∈ dedupQ l) : a ∈ l :=
  dedupQAux_subset h

theorem scanAnchors_spec {sheet : SheetInstance} {xs ys : List Q} {w h : Q}
    {x y : Q} (hscan : scanAnchors sheet xs ys w h = some (x, y)) :
    x ∈ xs ∧ y ∈ ys ∧
    y.val + h.val ≤ sheet.height.val ∧ x.val + w.val ≤ sheet.width.val ∧
    ∀ existing ∈ sheet.placements,
      rectanglesOverlap x y w h existing.x existing.y existing.width existing.height
        = false := by
  unfold scanAnchors at hscan
  obtain ⟨y', hy', hinner⟩ := List.exists_of_findSome?_eq_some hscan
  by_cases hyb : Q.qlt sheet.height (Q.add y' h) = true
  · rw [if_pos hyb] at hinner
    exact absurd hinner (by simp)
  · rw [if_neg hyb] at hinner
    obtain ⟨x', hx', hcell⟩ := List.exists_of_findSome?_eq_some hinner
    by_cases hxb : Q.qlt sheet.width (Q.add x' w) = true
    · rw [if_pos hxb] at hcell
      exact absurd hcell (by simp)
    · rw [if_neg hxb] at hcell
      by_cases hov : (sheet.placements.any
          (fun existing => rectanglesOverlap x' y' w h
            existing.x existing.y existing.width existing.height)) = true
      · rw [if_pos hov] at hcell
        exact absurd hcell (by simp)
      · rw [if_neg hov] at hcell
        simp only [Option.some.injEq, Prod.mk.injEq] at hcell
        obtain ⟨hxx, hyy⟩ := hcell
        rw [← hxx, ← hyy]
        have hyv : y'.val + h.val ≤ sheet.height.val := by
          have := (Q.qlt_false_iff _ _).mp (Bool.not_eq_true _ ▸ hyb)
          simpa using this
        have hxv : x'.val + w.val ≤ sheet.width.val := by
          have := (Q.qlt_false_iff _ _).mp (Bool.not_eq_true _ ▸ hxb)
          simpa using this
        refine ⟨hx', hy', hyv, hxv, ?_⟩
        intro existing hex
        have := (Bool.not_eq_true _ ▸ hov : _ = false)
        rw [List.any_eq_false] at this
        exact Bool.not_eq_true _ ▸ (this existing hex)

theorem findPlacementOnSheet_spec {sheet : SheetInstance} {w h : Q}
    {f : FoundPosition} (hf : findPlacementOnSheet sheet w h = some f) :
    ((f.width = w ∧ f.height = h) ∨ (f.width = h ∧ f.height = w)) ∧
    (f.x = Q.zero ∨ ∃ p ∈ sheet.placements, f.x = Q.add p.x p.width) ∧
    (f.y = Q.zero ∨ ∃ p ∈ sheet.placements, f.y = Q.add p.y p.height) ∧
    f.y.val + f.height.val ≤ sheet.height.val ∧
    f.x.val + f.width.val ≤ sheet.width.val ∧
    ∀ existing ∈ sheet.placements,
      rectanglesOverlap f.x f.y f.width f.height
        existing.x existing.y existing.width existing.height = false := by
  unfold findPlacementOnSheet at hf
  obtain ⟨o, ho, hmap⟩ := List.exists_of_findSome?_eq_some hf
  simp only [Option.map_eq_some'] at hmap
  obtain ⟨⟨x, y⟩, hscan, rfl⟩ := hmap
  obtain ⟨hx, hy, hyb, hxb, hov⟩ := scanAnchors_spec hscan
  have hxmem : x ∈ Q.zero :: sheet.placements.map (fun p => Q.add p.x p.width) := by
    have := dedupQ_subset ((List.perm_insertionSort
      (fun a b => Q.qle a b = true) _).mem_iff.mp hx)
    exact this
  have hymem : y ∈ Q.zero :: sheet.placements.map (fun p => Q.add p.y p.height) := by
    have := dedupQ_subset ((List.perm_insertionSort
      (fun a b => Q.qle a b = true) _).mem_iff.mp hy)
    exact this
  refine ⟨mem_getOrientations ho, ?_, ?_, hyb, hxb, hov⟩
  · rcases List.mem_cons.mp hxmem with h0 | hm
    · exact Or.inl h0
    · obtain ⟨p, hp, hpx⟩ := List.mem_map.mp hm
      exact Or.inr ⟨p, hp, hpx.symm⟩
  · rcases List.mem_cons.mp hymem with h0 | hm
    · exact Or.inl h0
    · obtain ⟨p, hp, hpy⟩ := List.mem_map.mp hm
      exact Or.inr ⟨p, hp, hpy.symm⟩

theorem pairwiseNoOverlap_spec (ps : List Placement) :
    pairwiseNoOverlap ps = true ↔
      List.Pairwise (fun a b => ¬ RectsOverlap a b) ps := by
  induction ps with
  | nil => simp [pairwiseNoOverlap]
  | cons p rest ih =>
    unfold pairwiseNoOverlap
    rw [Bool.and_eq_true, List.all_eq_true, List.pairwise_cons, ih]
    constructor
    · rintro ⟨h1, h2⟩
      refine ⟨fun q hq => ?_, h2⟩
      have := h1 q hq
      rw [Bool.not_eq_true'] at this
      rw [← placementsOverlap_iff]
      simp [this]
    · rintro ⟨h1, h2⟩
      refine ⟨fun q hq => ?_, h2⟩
      rw [Bool.not_eq_true']
      rcases Bool.eq_false_or_eq_true (placementsOverlap p q) with ht | hf
      · exact absurd ((placementsOverlap_iff p q).mp ht) (h1 q hq)
      · exact hf

theorem arePlacementsValidForSheet_spec {sheet : SheetInstance} {ps : List Placement}
    (h : arePlacementsValidForSheet sheet ps = true) :
    (∀ p ∈ ps, InBounds sheet.width.val sheet.height.val p) ∧
    List.Pairwise (fun a b => ¬ RectsOverlap a b) ps ∧
    (∀ p ∈ ps, ∀ q ∈ sheet.placements, ¬ RectsOverlap p q) := by
  unfold arePlacementsValidForSheet at h
  rw [Bool.and_eq_true, Bool.and_eq_true] at h
  obtain ⟨⟨h1, h2⟩, h3⟩ := h
  rw [List.all_eq_true] at h1 h3
  refine ⟨fun p hp => (isPlacementInsideSheet_iff sheet p).mp (h1 p hp),
    (pairwiseNoOverlap_spec ps).mp h2, fun p hp q hq => ?_⟩
  have := h3 p hp
  rw [Bool.not_eq_true', List.any_eq_false] at this
  have hz := this q hq
  rw [← placementsOverlap_iff]
  simp [hz]

theorem getLCutBundleLayout_spec {c : Candidate} {pA pB : PanelBlueprint}
    {l : LCutLayout} (h : getLCutBundleLayout c pA pB = some l) :
    ∃ longPanel shortPanel : PanelBlueprint,
      ((longPanel = pA ∧ shortPanel = pB) ∨ (longPanel = pB ∧ shortPanel = pA)) ∧
      l.height = longPanel.height ∧ l.longLength = longPanel.width ∧
      l.shortWidth = shortPanel.width := by
  unfold getLCutBundleLayout at h
  by_cases hid : c.id = "bundle-panel-long-a-panel-short-a" ∨
      c.id = "bundle-panel-long-b-panel-short-b"
  · rw [if_pos hid] at h
    by_cases hA : pA.type = PanelType.long
    · rw [if_pos hA] at h
      simp only at h
      by_cases ht : pA.type = PanelType.long ∧ pB.type = PanelType.short
      · rw [if_pos ht] at h
        by_cases hh : Q.qeq pA.height pB.height = true
        · rw [if_pos hh] at h
          simp only [Option.some.injEq] at h
          exact ⟨pA, pB, Or.inl ⟨rfl, rfl⟩, by rw [← h], by rw [← h], by rw [← h]⟩
        · rw [if_neg hh] at h; exact absurd h (by simp)
      · rw [if_neg ht] at h; exact absurd h (by simp)
    · rw [if_neg hA] at h
      simp only at h
      by_cases ht : pB.type = PanelType.long ∧ pA.type = PanelType.short
      · rw [if_pos ht] at h
        by_cases hh : Q.qeq pB.height pA.height = true
        · rw [if_pos hh] at h
          simp only [Option.some.injEq] at h
          exact ⟨pB, pA, Or.inr ⟨rfl, rfl⟩, by rw [← h], by rw [← h], by rw [← h]⟩
        · rw [if_neg hh] at h; exact absurd h (by simp)
      · rw [if_neg ht] at h; exact absurd h (by simp)
  · rw [if_neg hid] at h
    exact absurd h (by simp)

theorem tryPlaceLCut_spec {sheet : SheetInstance} {c : Candidate}
    {pA pB : PanelBlueprint} {l : LCutLayout} {att : List Placement}
    (h : tryPlaceLCut sheet c pA pB l = some att) :
    ∃ o anchor, o ∈ getOrientations l.totalLength l.height ∧
      att = [mkLCutFirst sheet c pA l anchor o.rotated,
        mkLCutSecond sheet c pB l anchor o.rotated] ∧
      arePlacementsValidForSheet sheet att = true := by
  unfold tryPlaceLCut at h
  obtain ⟨o, ho, hbody⟩ := List.exists_of_findSome?_eq_some h
  cases hfind : findPlacementOnSheet sheet o.width o.height with
  | none => rw [hfind] at hbody; exact absurd hbody (by simp)
  | some anchor =>
    rw [hfind] at hbody
    simp only at hbody
    by_cases hval : arePlacementsValidForSheet sheet
        [mkLCutFirst sheet c pA l anchor o.rotated,
          mkLCutSecond sheet c pB l anchor o.rotated] = true
    · rw [if_pos hval] at hbody
      simp only [Option.some.injEq] at hbody
      exact ⟨o, anchor, ho, hbody.symm, hbody ▸ hval⟩
    · rw [if_neg hval] at hbody
      exact absurd hbody (by simp)

theorem tryPlaceOrdinaryBundle_spec {sheet : SheetInstance} {c : Candidate}
    {pA pB : PanelBlueprint} {att : List Placement}
    (h : tryPlaceOrdinaryBundle sheet c pA pB = some att) :
    ∃ oA first oB second, oA ∈ getOrientations pA.width pA.height ∧
      findPlacementOnSheet sheet oA.width oA.height = some first ∧
      oB ∈ getOrientations pB.width pB.height ∧
      findPlacementOnSheet
        { sheet with placements :=
            sheet.placements ++ [mkBundlePlacement sheet c pA first oA.rotated] }
        oB.width oB.height = some second ∧
      att = [mkBundlePlacement sheet c pA first oA.rotated,
        mkBundlePlacement sheet c pB second oB.rotated] ∧
      arePlacementsValidForSheet sheet att = true := by
  unfold tryPlaceOrdinaryBundle at h
  obtain ⟨oA, hoA, hbody⟩ := List.exists_of_findSome?_eq_some h
  cases hfirst : findPlacementOnSheet sheet oA.width oA.height with
  | none => rw [hfirst] at hbody; exact absurd hbody (by simp)
  | some first =>
    rw [hfirst] at hbody
    simp only at hbody
    obtain ⟨oB, hoB, hbody2⟩ := List.exists_of_findSome?_eq_some hbody
    cases hsecond : findPlacementOnSheet
        { sheet with placements :=
            sheet.placements ++ [mkBundlePlacement sheet c pA first oA.rotated] }
        oB.width oB.height with
    | none => rw [hsecond] at hbody2; exact absurd hbody2 (by simp)
    | some second =>
      rw [hsecond] at hbody2
      simp only at hbody2
      by_cases hval : arePlacementsValidForSheet sheet
          [mkBundlePlacement sheet c pA first oA.rotated,
            mkBundlePlacement sheet c pB second oB.rotated] = true
      · rw [if_pos hval] at hbody2
        simp only [Option.some.injEq] at hbody2
        exact ⟨oA, first, oB, second, hoA, hfirst, hoB, hsecond, hbody2.symm,
          hbody2 ▸ hval⟩
      · rw [if_neg hval] at hbody2
        exact absurd hbody2 (by simp)

theorem orientation_dims_pos {w h : Q} {o : PanelOrientation}
    (ho : o ∈ getOrientations w h) (hw : 0 < w.val) (hh : 0 < h.val) :
    0 < o.width.val ∧ 0 < o.height.val := by
  rcases mem_getOrientations ho with ⟨h1, h2⟩ | ⟨h1, h2⟩ <;> rw [h1, h2] <;>
    exact ⟨by assumption, by assumption⟩

theorem found_dims_pos {sheet : SheetInstance} {w h : Q} {f : FoundPosition}
    (hf : findPlacementOnSheet sheet w h = some f) (hw : 0 < w.val) (hh : 0 < h.val) :
    0 < f.width.val ∧ 0 < f.height.val := by
  rcases (findPlacementOnSheet_spec hf).1 with ⟨h1, h2⟩ | ⟨h1, h2⟩ <;> rw [h1, h2] <;>
    exact ⟨by assumption, by assumption⟩

/-- What a successful `tryPlaceCandidate` guarantees on a well-formed
sheet: the returned placements are in bounds with positive dimensions,
mutually disjoint, disjoint from everything already on the sheet, nonempty,
their panel ids form a prefix of the candidate's panel ids, and each
placement inherits `panelId`/`isLiner` from one of the candidate's
panels. -/
theorem tryPlaceCandidate_spec {sheet : SheetInstance} {c : Candidate}
    {att : List Placement} (hOK : SheetOK sheet) (hc : GoodCandidate c)
    (h : tryPlaceCandidate sheet c = some att) :
    (∀ p ∈ att, GoodPlacement sheet.width.val sheet.height.val p) ∧
    List.Pairwise (fun a b => ¬ RectsOverlap a b) att ∧
    (∀ p ∈ att, ∀ q ∈ sheet.placements, ¬ RectsOverlap p q) ∧
    att ≠ [] ∧
    (∃ restIds, c.panels.map (fun p => p.id) = att.map (fun p => p.panelId) ++ restIds) ∧
    (∀ p ∈ att, ∃ bp ∈ c.panels, p.panelId = bp.id ∧ p.isLiner = bp.isLiner) := by
  unfold tryPlaceCandidate at h
  have hanchor : ∀ a : Q,
      (a = Q.zero ∨ ∃ p ∈ sheet.placements, a = Q.add p.x p.width) → 0 ≤ a.val := by
    rintro a (rfl | ⟨p, hp, rfl⟩)
    · simp
    · have hg := (hOK.1 p hp)
      have h1 := hg.1.1
      have h2 := hg.2.1
      rw [Q.val_add]
      linarith
  have hanchorY : ∀ a : Q,
      (a = Q.zero ∨ ∃ p ∈ sheet.placements, a = Q.add p.y p.height) → 0 ≤ a.val := by
    rintro a (rfl | ⟨p, hp, rfl⟩)
    · simp
    · have hg := (hOK.1 p hp)
      have h1 := hg.1.2.1
      have h2 := hg.2.2
      rw [Q.val_add]
      linarith
  cases hp : c.panels with
  | nil => rw [hp] at h; exact absurd h (by simp)
  | cons pA tl =>
    cases tl with
    | nil =>
      rw [hp] at h
      simp only [Option.map_eq_some'] at h
      obtain ⟨f, hfind, rfl⟩ := h
      have hpA : pA ∈ c.panels := by rw [hp]; exact List.mem_cons_self _ _
      have hpos := found_dims_pos hfind (hc pA hpA).1 (hc pA hpA).2
      obtain ⟨-, hx0, hy0, hyb, hxb, hov⟩ := findPlacementOnSheet_spec hfind
      refine ⟨?_, ?_, ?_, by simp, ⟨[], by simp [mkSinglePlacement]⟩, ?_⟩
      · intro p hp'
        rcases List.mem_singleton.mp hp' with rfl
        exact ⟨⟨hanchor f.x hx0, hanchorY f.y hy0, hxb, hyb⟩, hpos.1, hpos.2⟩
      · simp
      · intro p hp' q hq
        rcases List.mem_singleton.mp hp' with rfl
        intro hover
        have : placementsOverlap (mkSinglePlacement sheet c pA f) q = true :=
          (placementsOverlap_iff _ _).mpr hover
        rw [show placementsOverlap (mkSinglePlacement sheet c pA f) q
          = rectanglesOverlap f.x f.y f.width f.height q.x q.y q.width q.height
          from rfl] at this
        rw [hov q hq] at this
        exact Bool.false_ne_true this
      · intro p hp'
        rcases List.mem_singleton.mp hp' with rfl
        exact ⟨pA, by simp, rfl, rfl⟩
    | cons pB rest =>
      rw [hp] at h
      simp only at h
      have hpA : pA ∈ c.panels := by rw [hp]; exact List.mem_cons_self _ _
      have hpB : pB ∈ c.panels := by
        rw [hp]; exact List.mem_cons_of_mem _ (List.mem_cons_self _ _)
      have hwA := hc pA hpA
      have hwB := hc pB hpB
      have hfinish : ∀ (ps : List Placement),
          att = ps →
          arePlacementsValidForSheet sheet ps = true →
          (∀ p ∈ ps, 0 < p.width.val ∧ 0 < p.height.val) →
          (ps.map (fun p => p.panelId) = [pA.id, pB.id]) →
          (∀ p ∈ ps, ∃ bp ∈ pA :: pB :: rest, p.panelId = bp.id ∧ p.isLiner = bp.isLiner) →
          (∀ p ∈ att, GoodPlacement sheet.width.val sheet.height.val p) ∧
          List.Pairwise (fun a b => ¬ RectsOverlap a b) att ∧
          (∀ p ∈ att, ∀ q ∈ sheet.placements, ¬ RectsOverlap p q) ∧
          att ≠ [] ∧
          (∃ restIds, (pA :: pB :: rest).map (fun p => p.id)
            = att.map (fun p => p.panelId) ++ restIds) ∧
          (∀ p ∈ att, ∃ bp ∈ pA :: pB :: rest,
            p.panelId = bp.id ∧ p.isLiner = bp.isLiner) := by
        rintro ps rfl hval hpos hids hlin
        obtain ⟨hin, hpw, hdisj⟩ := arePlacementsValidForSheet_spec hval
        refine ⟨fun p hp' => ⟨hin p hp', (hpos p hp').1, (hpos p hp').2⟩, hpw, hdisj,
          ?_, ⟨rest.map (fun p => p.id), ?_⟩, hlin⟩
        · intro hnil
          rw [hnil] at hids
          exact absurd hids (by simp)
        · rw [List.map_cons, List.map_cons, hids]
          rfl
      cases hl : getLCutBundleLayout c pA pB with
      | some l =>
        rw [hl] at h
        simp only at h
        cases hlc : tryPlaceLCut sheet c pA pB l with
        | some ps =>
          rw [hlc] at h
          simp only [Option.some.injEq] at h
          obtain ⟨o, anchor, ho, hps, hval⟩ := tryPlaceLCut_spec hlc
          obtain ⟨longP, shortP, hor, hh, hll, hsw⟩ := getLCutBundleLayout_spec hl
          have hlp : 0 < l.height.val ∧ 0 < l.longLength.val ∧ 0 < l.shortWidth.val := by
            rcases hor with ⟨rfl, rfl⟩ | ⟨rfl, rfl⟩
            · rw [hh, hll, hsw]
              exact ⟨hwA.2, hwA.1, hwB.1⟩
            · rw [hh, hll, hsw]
              exact ⟨hwB.2, hwB.1, hwA.1⟩
          refine hfinish ps (by rw [← h]) hval ?_ ?_ ?_
          · intro p hp'
            rw [hps] at hp'
            rcases List.mem_cons.mp hp' with rfl | hp''
            · cases hrot : o.rotated with
              | false =>
                simp only [mkLCutFirst, hrot, if_false]
                exact ⟨hlp.2.1, hlp.1⟩
              | true =>
                simp only [mkLCutFirst, hrot, if_true]
                exact ⟨hlp.1, hlp.2.1⟩
            · rcases List.mem_singleton.mp hp'' with rfl
              cases hrot : o.rotated with
              | false =>
                simp only [mkLCutSecond, hrot, if_false]
                exact ⟨hlp.2.2, hlp.1⟩
              | true =>
                simp only [mkLCutSecond, hrot, if_true]
                exact ⟨hlp.1, hlp.2.2⟩
          · rw [hps]; rfl
          · intro p hp'
            rw [hps] at hp'
            rcases List.mem_cons.mp hp' with rfl | hp''
            · exact ⟨pA, by simp, rfl, rfl⟩
            · rcases List.mem_singleton.mp hp'' with rfl
              exact ⟨pB, by simp, rfl, rfl⟩
        | none =>
          rw [hlc] at h
          simp only at h
          obtain ⟨oA, first, oB, second, hoA, hfirst, hoB, hsecond, hps, hval⟩ :=
            tryPlaceOrdinaryBundle_spec h
          have hposA := found_dims_pos hfirst (orientation_dims_pos hoA hwA.1 hwA.2).1
            (orientation_dims_pos hoA hwA.1 hwA.2).2
          have hposB := found_dims_pos hsecond (orientation_dims_pos hoB hwB.1 hwB.2).1
            (orientation_dims_pos hoB hwB.1 hwB.2).2
          refine hfinish _ hps (hps ▸ hval) ?_ ?_ ?_
          · intro p hp'
            rcases List.mem_cons.mp hp' with rfl | hp''
            · exact hposA
            · rcases List.mem_singleton.mp hp'' with rfl
              exact hposB
          · rfl
          · intro p hp'
            rcases List.mem_cons.mp hp' with rfl | hp''
            · exact ⟨pA, by simp, rfl, rfl⟩
            · rcases List.mem_singleton.mp hp'' with rfl
              exact ⟨pB, by simp, rfl, rfl⟩
      | none =>
        rw [hl] at h
        simp only at h
        obtain ⟨oA, first, oB, second, hoA, hfirst, hoB, hsecond, hps, hval⟩ :=
          tryPlaceOrdinaryBundle_spec h
        have hposA := found_dims_pos hfirst (orientation_dims_pos hoA hwA.1 hwA.2).1
          (orientation_dims_pos hoA hwA.1 hwA.2).2
        have hposB := found_dims_pos hsecond (orientation_dims_pos hoB hwB.1 hwB.2).1
          (orientation_dims_pos hoB hwB.1 hwB.2).2
        refine hfinish _ hps (hps ▸ hval) ?_ ?_ ?_
        · intro p hp'
          rcases List.mem_cons.mp hp' with rfl | hp''
          · exact hposA
          · rcases List.mem_singleton.mp hp'' with rfl
            exact hposB
        · rfl
        · intro p hp'
          rcases List.mem_cons.mp hp' with rfl | hp''
          · exact ⟨pA, by simp, rfl, rfl⟩
          · rcases List.mem_singleton.mp hp'' with rfl
            exact ⟨pB, by simp, rfl, rfl⟩

theorem RectsOverlap_comm {a b : Placement} (h : RectsOverlap a b) : RectsOverlap b a := by
  obtain ⟨h1, h2, h3, h4⟩ := h
  exact ⟨h2, h1, h4, h3⟩

theorem pushAttempt_SheetOK {sheet : SheetInstance} {att : List Placement}
    (hOK : SheetOK sheet)
    (h1 : ∀ p ∈ att, GoodPlacement sheet.width.val sheet.height.val p)
    (h2 : List.Pairwise (fun a b => ¬ RectsOverlap a b) att)
    (h3 : ∀ p ∈ att, ∀ q ∈ sheet.placements, ¬ RectsOverlap p q) :
    SheetOK (pushAttempt sheet att) := by
  constructor
  · intro p hp
    rcases List.mem_append.mp hp with hm | hm
    · exact hOK.1 p hm
    · exact h1 p hm
  · rw [show (pushAttempt sheet att).placements = sheet.placements ++ att from rfl,
      List.pairwise_append]
    exact ⟨hOK.2, h2, fun a ha b hb hover => h3 b hb a ha (RectsOverlap_comm hover)⟩

theorem pushAttempt_accounted {inst : SheetInstance} {att : List Placement}
    (harea : inst.usedAreaIn2.val
      = (inst.placements.map (fun p => p.width.val * p.height.val)).sum)
    (hne : inst.placements ≠ [] ∨ att ≠ []) :
    InstanceAccounted (pushAttempt inst att) := by
  constructor
  · rw [show (pushAttempt inst att).placements = inst.placements ++ att from rfl]
    rcases hne with h | h
    · simp [h]
    · simp [h]
  · rw [show (pushAttempt inst att).placements = inst.placements ++ att from rfl,
      show (pushAttempt inst att).usedAreaIn2
        = Q.add inst.usedAreaIn2 (sumArea att) from rfl,
      Q.val_add, harea, sumArea_val, List.map_append, List.sum_append]

theorem freshInstance_SheetOK (row : SheetInventoryRow) (usage : Nat) :
    SheetOK (freshInstance row usage) := by
  constructor
  · intro p hp
    exact absurd hp (List.not_mem_nil p)
  · exact List.Pairwise.nil

theorem mem_pushAttemptAt : ∀ (l : List SheetInstance) (i : Nat) (att : List Placement)
    (inst' : SheetInstance), inst' ∈ pushAttemptAt l i att →
    inst' ∈ l ∨ ∃ hi : i < l.length, inst' = pushAttempt (l.get ⟨i, hi⟩) att := by
  intro l
  induction l with
  | nil => intro i att inst' h; exact absurd h (List.not_mem_nil inst')
  | cons inst rest ih =>
    intro i att inst' h
    cases i with
    | zero =>
      rcases List.mem_cons.mp h with rfl | hm
      · exact Or.inr ⟨Nat.succ_pos _, rfl⟩
      · exact Or.inl (List.mem_cons_of_mem _ hm)
    | succ j =>
      rcases List.mem_cons.mp h with rfl | hm
      · exact Or.inl (List.mem_cons_self _ _)
      · rcases ih j att inst' hm with hin | ⟨hj, heq⟩
        · exact Or.inl (List.mem_cons_of_mem _ hin)
        · exact Or.inr ⟨Nat.succ_lt_succ hj, heq⟩

theorem pushAttemptAt_map_rowId : ∀ (l : List SheetInstance) (i : Nat)
    (att : List Placement),
    (pushAttemptAt l i att).map (fun s => s.rowId) = l.map (fun s => s.rowId) := by
  intro l
  induction l with
  | nil => intro i att; rfl
  | cons inst rest ih =>
    intro i att
    cases i with
    | zero => rfl
    | succ j => simp only [pushAttemptAt, List.map_cons, ih]

theorem getUsage_setUsage_self (m : UsageMap) (id : String) (v : Nat) :
    getUsage (setUsage m id v) id = v := by
  unfold getUsage setUsage
  rw [List.find?_cons_of_pos]
  simp

theorem getUsage_setUsage_ne (m : UsageMap) (id id' : String) (v : Nat)
    (h : id' ≠ id) :
    getUsage (setUsage m id v) id' = getUsage m id' := by
  unfold getUsage setUsage
  rw [List.find?_cons_of_neg]
  simp [Ne.symm h]

theorem bestExistingAux_spec {c : Candidate} :
    ∀ (l : List SheetInstance) (i0 : Nat)
      (best : Option (Nat × List Placement × Q)) (j : Nat) (att : List Placement)
      (w : Q), bestExistingAux c l i0 best = some (j, att, w) →
      (∃ k, ∃ hk : k < l.length, tryPlaceCandidate (l.get ⟨k, hk⟩) c = some att ∧
        j = i0 + k) ∨ best = some (j, att, w) := by
  intro l
  induction l with
  | nil => intro i0 best j att w h; exact Or.inr h
  | cons inst rest ih =>
    intro i0 best j att w h
    unfold bestExistingAux at h
    rcases ih (i0 + 1) _ j att w h with ⟨k, hk, htry, hj⟩ | hbest
    · exact Or.inl ⟨k + 1, Nat.succ_lt_succ hk, htry, by omega⟩
    · cases htryc : tryPlaceCandidate inst c with
      | none =>
        simp only [htryc] at hbest
        exact Or.inr hbest
      | some attempt =>
        simp only [htryc] at hbest
        cases best with
        | none =>
          simp only [Option.some.injEq, Prod.mk.injEq] at hbest
          obtain ⟨h1, h2, -⟩ := hbest
          exact Or.inl ⟨0, Nat.succ_pos _, by rw [← h2]; exact htryc, by omega⟩
        | some b =>
          obtain ⟨bi, batt, bwaste⟩ := b
          rcases Bool.eq_false_or_eq_true (Q.qlt (Q.qmax Q.zero
              (Q.sub (Q.mul inst.width inst.height)
                (Q.add inst.usedAreaIn2 (sumArea attempt)))) bwaste) with hlt | hlt
          · simp only [hlt, if_true] at hbest
            simp only [Option.some.injEq, Prod.mk.injEq] at hbest
            obtain ⟨h1, h2, -⟩ := hbest
            exact Or.inl ⟨0, Nat.succ_pos _, by rw [← h2]; exact htryc, by omega⟩
          · simp only [hlt, Bool.false_eq_true, if_false] at hbest
            simp only [Option.some.injEq, Prod.mk.injEq] at hbest
            obtain ⟨h1, h2, h3⟩ := hbest
            subst h1
            subst h2
            subst h3
            exact Or.inr rfl

theorem bestNewAux_spec {c : Candidate} {rowUsage : UsageMap}
    {rem : List Candidate} :
    ∀ (l : List SheetInventoryRow) (best : Option BestNewSheet) (b : BestNewSheet),
      bestNewAux c rowUsage rem l best = some b →
      (b.row ∈ l ∧ b.usage = getUsage rowUsage b.row.id ∧
        rowAtCapacity b.row b.usage = false ∧
        tryPlaceCandidate (freshInstance b.row b.usage) c = some b.attempt) ∨
      best = some b := by
  intro l
  induction l with
  | nil => intro best b h; exact Or.inr h
  | cons row rest ih =>
    intro best b h
    unfold bestNewAux at h
    rcases Bool.eq_false_or_eq_true (rowAtCapacity row (getUsage rowUsage row.id))
      with hcap | hcap
    · simp only [hcap, if_true] at h
      rcases ih best b h with ⟨hm, hrest⟩ | hbest
      · exact Or.inl ⟨List.mem_cons_of_mem _ hm, hrest⟩
      · exact Or.inr hbest
    · simp only [hcap, Bool.false_eq_true, if_false] at h
      cases htry : tryPlaceCandidate (freshInstance row (getUsage rowUsage row.id)) c with
      | none =>
        simp only [htry] at h
        rcases ih best b h with ⟨hm, hrest⟩ | hbest
        · exact Or.inl ⟨List.mem_cons_of_mem _ hm, hrest⟩
        · exact Or.inr hbest
      | some attempt =>
        simp only [htry] at h
        rcases Bool.eq_false_or_eq_true (betterNewSheet
            (canFitCandidatesOnSingleSheet row (c :: rem))
            (getSheetCost row.width row.height row.costPerSqft)
            (Q.qmax Q.zero (Q.sub (Q.mul row.width row.height) (sumArea attempt)))
            best) with hbet | hbet
        · simp only [hbet, if_true] at h
          rcases ih _ b h with ⟨hm, hrest⟩ | hbest
          · exact Or.inl ⟨List.mem_cons_of_mem _ hm, hrest⟩
          · left
            have hb : b = ⟨row, getUsage rowUsage row.id, attempt,
                getSheetCost row.width row.height row.costPerSqft,
                Q.qmax Q.zero (Q.sub (Q.mul row.width row.height) (sumArea attempt)),
                canFitCandidatesOnSingleSheet row (c :: rem)⟩ := by
              injection hbest.symm
            subst hb
            exact ⟨List.mem_cons_self _ _, rfl, hcap, htry⟩
        · simp only [hbet, Bool.false_eq_true, if_false] at h
          rcases ih best b h with ⟨hm, hrest⟩ | hbest
          · exact Or.inl ⟨List.mem_cons_of_mem _ hm, hrest⟩
          · exact Or.inr hbest

/-- What a successful `placeCandidateOnSheets` did: either it pushed the
attempt onto one open instance whose placement attempt succeeded (leaving
the usage map unchanged), or it opened a fresh instance from a row with
remaining quantity, pushed the attempt there, and bumped that row's usage
counter. -/
theorem placeCandidateOnSheets_spec {c : Candidate} {sheets : List SheetInstance}
    {rows : List SheetInventoryRow} {m : UsageMap} {rem : List Candidate}
    {out : List SheetInstance × UsageMap × List Placement}
    (h : placeCandidateOnSheets c sheets rows m rem = some out) :
    (∃ i, ∃ hi : i < sheets.length,
      tryPlaceCandidate (sheets.get ⟨i, hi⟩) c = some out.2.2 ∧
      out.1 = pushAttemptAt sheets i out.2.2 ∧ out.2.1 = m) ∨
    (∃ row, row ∈ rows ∧
      rowAtCapacity row (getUsage m row.id) = false ∧
      tryPlaceCandidate (freshInstance row (getUsage m row.id)) c = some out.2.2 ∧
      out.1 = sheets ++ [pushAttempt (freshInstance row (getUsage m row.id)) out.2.2] ∧
      out.2.1 = setUsage m row.id (getUsage m row.id + 1)) := by
  unfold placeCandidateOnSheets at h
  cases hbe : bestExistingAux c sheets 0 none with
  | some triple =>
    obtain ⟨i, att, w⟩ := triple
    rw [hbe] at h
    simp only [Option.some.injEq] at h
    subst h
    rcases bestExistingAux_spec sheets 0 none i att w hbe with ⟨k, hk, htry, hik⟩ | hbad
    · left
      refine ⟨k, hk, htry, ?_, rfl⟩
      show pushAttemptAt sheets i att = pushAttemptAt sheets k att
      rw [show i = k from by omega]
    · exact absurd hbad (by simp)
  | none =>
    rw [hbe] at h
    cases hbn : bestNewAux c m rem rows none with
    | some b =>
      rw [hbn] at h
      simp only [Option.some.injEq] at h
      subst h
      rcases bestNewAux_spec rows none b hbn with ⟨hm, husage, hcap, htry⟩ | hbad
      · right
        refine ⟨b.row, hm, ?_, ?_, ?_, ?_⟩
        · rw [← husage]; exact hcap
        · rw [← husage]; exact htry
        · show sheets ++ [pushAttempt (freshInstance b.row b.usage) b.attempt]
            = sheets ++ [pushAttempt (freshInstance b.row (getUsage m b.row.id)) b.attempt]
          rw [husage]
        · show setUsage m b.row.id (b.usage + 1)
            = setUsage m b.row.id (getUsage m b.row.id + 1)
          rw [husage]
      · exact absurd hbad (by simp)
    | none =>
      rw [hbn] at h
      exact absurd h (by simp)

theorem commit_placements_inv {panels : List PanelBlueprint} {s : SolverState}
    {c : Candidate} {att : List Placement}
    (hplaced : ∀ x, x ∈ s.placedPanels ↔ x ∈ s.placements.map (fun p => p.panelId))
    (hnodup : (s.placements.map (fun p => p.panelId)).Nodup)
    (hfrom : ∀ p ∈ s.placements, ∃ bp ∈ panels,
      p.panelId = bp.id ∧ p.isLiner = bp.isLiner)
    (hcwf : CandidateWF panels c)
    (hskip : ∀ bp ∈ c.panels, bp.id ∉ s.placedPanels)
    (hids : ∃ restIds, c.panels.map (fun p => p.id)
      = att.map (fun p => p.panelId) ++ restIds)
    (hlin : ∀ p ∈ att, ∃ bp ∈ c.panels, p.panelId = bp.id ∧ p.isLiner = bp.isLiner) :
    (∀ x, x ∈ s.placedPanels ++ att.map (fun p => p.panelId) ↔
      x ∈ (s.placements ++ att).map (fun p => p.panelId)) ∧
    ((s.placements ++ att).map (fun p => p.panelId)).Nodup ∧
    (∀ p ∈ s.placements ++ att, ∃ bp ∈ panels,
      p.panelId = bp.id ∧ p.isLiner = bp.isLiner) := by
  have hattMemPanels : ∀ x ∈ att.map (fun p => p.panelId),
      ∃ bp ∈ c.panels, bp.id = x := by
    intro x hx
    obtain ⟨p, hp, rfl⟩ := List.mem_map.mp hx
    obtain ⟨bp, hbp, heq, -⟩ := hlin p hp
    exact ⟨bp, hbp, heq.symm⟩
  refine ⟨?_, ?_, ?_⟩
  · intro x
    rw [List.map_append, List.mem_append, List.mem_append, hplaced]
  · rw [List.map_append, List.nodup_append]
    refine ⟨hnodup, ?_, ?_⟩
    · obtain ⟨restIds, heq⟩ := hids
      have := hcwf.2
      rw [heq] at this
      exact this.of_append_left
    · intro x hxold hxatt
      obtain ⟨bp, hbp, rfl⟩ := hattMemPanels x hxatt
      exact hskip bp hbp ((hplaced bp.id).mpr hxold)
  · intro p hp
    rcases List.mem_append.mp hp with hm | hm
    · exact hfrom p hm
    · obtain ⟨bp, hbp, heq, hl⟩ := hlin p hm
      exact ⟨bp, hcwf.1 bp hbp, heq, hl⟩

theorem contains_false_not_mem {l : List String} {x : String}
    (h : l.contains x = false) : x ∉ l := by
  intro hm
  have helem : l.elem x = true := List.elem_iff.mpr hm
  rw [show l.contains x = l.elem x from rfl, helem] at h
  exact Bool.false_ne_true h.symm

/-- One placement-loop iteration preserves the solver invariant
(inventory ids distinct, quantities natural numbers). -/
theorem stepCandidate_inv {rows : List SheetInventoryRow}
    {panels : List PanelBlueprint}
    {s : SolverState} {c : Candidate} {rest : List Candidate}
    (hs : SolverStateInv rows panels s)
    (hcwf : CandidateWF panels c) (hcg : GoodCandidate c) :
    SolverStateInv rows panels (stepCandidate rows s c rest) := by
  unfold stepCandidate
  rcases Bool.eq_false_or_eq_true
      (c.panels.any (fun p => s.placedPanels.contains p.id)) with hany | hany
  · rw [hany]
    simp only [if_true]
    exact hs
  · rw [hany]
    simp only [Bool.false_eq_true, if_false]
    have hskip : ∀ bp ∈ c.panels, bp.id ∉ s.placedPanels := by
      intro bp hbp
      rw [List.any_eq_false] at hany
      exact contains_false_not_mem (Bool.not_eq_true _ ▸ (hany bp hbp))
    cases hplace : placeCandidateOnSheets c s.sheetInstances rows s.rowUsage
        (rest.filter
          (fun queued => queued.panels.all (fun p => !s.placedPanels.contains p.id))) with
    | none => exact hs
    | some out =>
      rcases placeCandidateOnSheets_spec hplace with
        ⟨i, hi, htry, hsheets, husage⟩ | ⟨row, hrow, hcap, htry, hsheets, husage⟩
      · -- placed on an existing open instance
        have hinstOK := hs.sheetsOK _ (List.get_mem s.sheetInstances i hi)
        have tspec := tryPlaceCandidate_spec hinstOK hcg htry
        obtain ⟨hgood, hpw, hdisj, hne, hidsatt, hlin⟩ := tspec
        obtain ⟨hplIff, hplNodup, hplFrom⟩ := commit_placements_inv
          hs.placedIff hs.nodupIds hs.fromPanels hcwf hskip hidsatt hlin
        refine ⟨?_, ?_, ?_, ?_, hplIff, hplNodup, hplFrom⟩
        · intro inst' hmem
          replace hmem : inst' ∈ out.1 := hmem
          rw [hsheets] at hmem
          rcases mem_pushAttemptAt _ _ _ _ hmem with hm | ⟨hi', heq⟩
          · exact hs.sheetsOK inst' hm
          · rw [heq]
            exact pushAttempt_SheetOK hinstOK hgood hpw hdisj
        · intro inst' hmem
          replace hmem : inst' ∈ out.1 := hmem
          rw [hsheets] at hmem
          rcases mem_pushAttemptAt _ _ _ _ hmem with hm | ⟨hi', heq⟩
          · exact hs.accounted inst' hm
          · rw [heq]
            exact pushAttempt_accounted
              (hs.accounted _ (List.get_mem s.sheetInstances i hi)).2
              (Or.inl (hs.accounted _ (List.get_mem s.sheetInstances i hi)).1)
        · intro id
          show ((out.1).map (fun inst => inst.rowId)).count id = getUsage out.2.1 id
          rw [hsheets, husage, pushAttemptAt_map_rowId]
          exact hs.counts id
        · intro hids hnat row' hrow' hlim
          show ((getUsage out.2.1 row'.id : ℚ)) ≤ max 0 row'.quantity.val
          rw [husage]
          exact hs.usageBound hids hnat row' hrow' hlim
      · -- opened a fresh instance from a row
        have hfreshOK := freshInstance_SheetOK row (getUsage s.rowUsage row.id)
        have tspec := tryPlaceCandidate_spec hfreshOK hcg htry
        obtain ⟨hgood, hpw, hdisj, hne, hidsatt, hlin⟩ := tspec
        obtain ⟨hplIff, hplNodup, hplFrom⟩ := commit_placements_inv
          hs.placedIff hs.nodupIds hs.fromPanels hcwf hskip hidsatt hlin
        refine ⟨?_, ?_, ?_, ?_, hplIff, hplNodup, hplFrom⟩
        · intro inst' hmem
          replace hmem : inst' ∈ out.1 := hmem
          rw [hsheets] at hmem
          rcases List.mem_append.mp hmem with hm | hm
          · exact hs.sheetsOK inst' hm
          · rcases List.mem_singleton.mp hm with rfl
            exact pushAttempt_SheetOK hfreshOK hgood hpw hdisj
        · intro inst' hmem
          replace hmem : inst' ∈ out.1 := hmem
          rw [hsheets] at hmem
          rcases List.mem_append.mp hmem with hm | hm
          · exact hs.accounted inst' hm
          · rcases List.mem_singleton.mp hm with rfl
            exact pushAttempt_accounted (by simp [freshInstance]) (Or.inr hne)
        · intro key
          show ((out.1).map (fun inst => inst.rowId)).count key = getUsage out.2.1 key
          rw [hsheets, husage, List.map_append]
          rw [List.count_append]
          rw [show ((([pushAttempt (freshInstance row (getUsage s.rowUsage row.id))
              out.2.2]).map (fun inst => inst.rowId))) = [row.id] from rfl]
          by_cases hid : key = row.id
          · subst hid
            rw [getUsage_setUsage_self]
            rw [hs.counts row.id]
            simp
          · rw [getUsage_setUsage_ne _ _ _ _ hid]
            have hz : ([row.id] : List String).count key = 0 := by
              simp only [List.count_cons, List.count_nil]
              rw [if_neg (by simp [Ne.symm hid])]
            rw [hz, hs.counts key]
            simp
        · intro hids hnat row' hrow' hlim
          show ((getUsage out.2.1 row'.id : ℚ)) ≤ max 0 row'.quantity.val
          rw [husage]
          by_cases hid : row'.id = row.id
          · have hrr : row' = row := List.inj_on_of_nodup_map hids hrow' hrow hid
            subst hrr
            rw [getUsage_setUsage_self]
            obtain ⟨n, hn⟩ := hnat row' hrow'
            unfold rowAtCapacity at hcap
            rw [hlim, Bool.true_and] at hcap
            have hlt := (Q.qle_false_iff _ _).mp hcap
            rw [Q.val_qmax, Q.val_zero, Q.val_ofNat, hn] at hlt
            rw [hn]
            rw [max_eq_right (Nat.cast_nonneg n)] at hlt ⊢
            have hun : getUsage s.rowUsage row'.id < n := by exact_mod_cast hlt
            exact_mod_cast Nat.succ_le_of_lt hun
          · rw [getUsage_setUsage_ne _ _ _ _ hid]
            exact hs.usageBound hids hnat row' hrow' hlim

/-- The initial solver state satisfies the invariant. -/
theorem initialSolverState_inv (rows : List SheetInventoryRow)
    (panels : List PanelBlueprint) : SolverStateInv rows panels initialSolverState := by
  refine ⟨?_, ?_, ?_, ?_, ?_, ?_, ?_⟩
  · intro inst hmem; exact absurd hmem (List.not_mem_nil inst)
  · intro inst hmem; exact absurd hmem (List.not_mem_nil inst)
  · intro key; rfl
  · intro _ _ row _ _
    exact le_max_of_le_left (by simp [getUsage, initialSolverState])
  · intro x; simp [initialSolverState]
  · exact List.Pairwise.nil
  · intro p hmem; exact absurd hmem (List.not_mem_nil p)

/-- The placement loop preserves the invariant along any queue of
well-formed candidates. -/
theorem runQueue_inv {rows : List SheetInventoryRow} {panels : List PanelBlueprint} :
    ∀ (queue : List Candidate) (s : SolverState),
      SolverStateInv rows panels s →
      (∀ c ∈ queue, CandidateWF panels c ∧ GoodCandidate c) →
      SolverStateInv rows panels (runQueue rows s queue) := by
  intro queue
  induction queue with
  | nil => intro s hs _; exact hs
  | cons c rest ih =>
    intro s hs hq
    unfold runQueue
    exact ih _ (stepCandidate_inv hs (hq c (List.mem_cons_self _ _)).1
        (hq c (List.mem_cons_self _ _)).2)
      (fun c' hc' => hq c' (List.mem_cons_of_mem _ hc'))

/-- Adjacency entries pair distinct panel ids. -/
theorem bundleAdjacency_distinct :
    ∀ entry ∈ bundleAdjacency, entry.1 ≠ entry.2.1 := by decide

/-- Every candidate in the queue is well-formed with respect to the panel
list it was built from. -/
theorem buildCandidateQueue_wf (panels : List PanelBlueprint) (baseCostPerSqft : Q) :
    ∀ c ∈ buildCandidateQueue panels baseCostPerSqft, CandidateWF panels c := by
  intro c hc
  unfold buildCandidateQueue at hc
  rcases List.mem_append.mp hc with hm | hm
  · have hm' := (List.perm_insertionSort
      (fun a b => compareCandidatesLe a b = true) _).mem_iff.mp hm
    obtain ⟨entry, hentry, ap, pp, hap, hpp, rfl⟩ := mem_bundleCandidates hm'
    obtain ⟨hapm, hapi⟩ := lookupPanel_spec _ _ _ hap
    obtain ⟨hppm, hppi⟩ := lookupPanel_spec _ _ _ hpp
    constructor
    · intro bp hbp
      rcases List.mem_cons.mp hbp with rfl | hbp'
      · exact hapm
      · rcases List.mem_singleton.mp hbp' with rfl
        exact hppm
    · show ([ap.id, pp.id] : List String).Nodup
      rw [hapi, hppi]
      simp [bundleAdjacency_distinct entry hentry]
  · have hm' := (List.perm_insertionSort
      (fun a b => compareCandidatesLe a b = true) _).mem_iff.mp hm
    obtain ⟨p, hp, rfl⟩ := mem_singleCandidates hm'
    exact ⟨fun bp hbp => by rcases List.mem_singleton.mp hbp with rfl; exact hp,
      by simp [mkSingleCandidate]⟩

/-- Every candidate in the queue has positive panel dimensions when the
panels do. -/
theorem buildCandidateQueue_good (panels : List PanelBlueprint) (baseCostPerSqft : Q)
    (hp : GoodPanels panels) :
    ∀ c ∈ buildCandidateQueue panels baseCostPerSqft, GoodCandidate c := by
  intro c hc bp hbp
  exact hp bp ((buildCandidateQueue_wf panels baseCostPerSqft c hc).1 bp hbp)

/-- The panels built from strictly positive fabrication dimensions have
strictly positive dimensions. -/
theorem buildPanels_good (fabrication : FabricationDimensions) (input : PlanterInput)
    (linerHeightPercent : Q) (hl : 0 < fabrication.length.val)
    (hw : 0 < fabrication.width.val) (hh : 0 < fabrication.height.val) :
    GoodPanels (buildPanels fabrication input linerHeightPercent) := by
  intro bp hbp
  unfold buildPanels at hbp
  simp only [List.mem_append] at hbp
  rcases hbp with ((hfl | hwall) | hshelf) | hliner
  · by_cases hfe : input.floorEnabled = true
    · rw [if_pos hfe] at hfl
      rcases List.mem_singleton.mp hfl with rfl
      exact ⟨hw, hl⟩
    · rw [if_neg hfe] at hfl
      exact absurd hfl (List.not_mem_nil bp)
  · simp only [List.mem_cons, List.not_mem_nil, or_false] at hwall
    rcases hwall with rfl | rfl | rfl | rfl
    · exact ⟨hl, hh⟩
    · exact ⟨hl, hh⟩
    · exact ⟨hw, hh⟩
    · exact ⟨hw, hh⟩
  · by_cases hse : input.shelfEnabled = true
    · rw [if_pos hse] at hshelf
      rcases List.mem_singleton.mp hshelf with rfl
      exact ⟨hw, hl⟩
    · rw [if_neg hse] at hshelf
      exact absurd hshelf (List.not_mem_nil bp)
  · by_cases hle : input.linerEnabled = true
    · rw [if_pos hle] at hliner
      rcases Bool.eq_false_or_eq_true (Q.qlt Q.zero
          (Q.qmax (Q.sub input.length input.linerDepth) Q.zero) &&
        Q.qlt Q.zero (Q.qmax (Q.sub input.width input.linerDepth) Q.zero) &&
        Q.qlt Q.zero (Q.qmax (Q.mul input.height linerHeightPercent) Q.zero))
        with hguard | hguard
      · rw [hguard] at hliner
        simp only [if_true] at hliner
        rw [Bool.and_eq_true, Bool.and_eq_true] at hguard
        obtain ⟨⟨hg1, hg2⟩, hg3⟩ := hguard
        have p1 := Q.val_pos_of_qlt_zero hg1
        have p2 := Q.val_pos_of_qlt_zero hg2
        have p3 := Q.val_pos_of_qlt_zero hg3
        simp only [List.mem_cons, List.not_mem_nil, or_false] at hliner
        rcases hliner with rfl | rfl | rfl | rfl | rfl
        · exact ⟨p2, p1⟩
        · exact ⟨p1, p3⟩
        · exact ⟨p1, p3⟩
        · exact ⟨p2, p3⟩
        · exact ⟨p2, p3⟩
      · rw [hguard] at hliner
        simp only [Bool.false_eq_true, if_false] at hliner
        exact absurd hliner (List.not_mem_nil bp)
    · rw [if_neg hle] at hliner
      exact absurd hliner (List.not_mem_nil bp)

/-- A successful run with positive fabrication dimensions: the result's
placements and sheet usages come from a final loop state satisfying the
solver invariant. -/
theorem run_ok_inv (planterInput : PlanterInput) (fabricationDims : FabricationDimensions)
    (breakdowns : List CostBreakdownPreview) (options : Option SolverOptions)
    (now : String) (res : SolverResult)
    (hrun : runPlanterSolver planterInput fabricationDims breakdowns options now
      = Except.ok res)
    (hl : 0 < fabricationDims.length.val) (hw : 0 < fabricationDims.width.val)
    (hh : 0 < fabricationDims.height.val) :
    ∃ finalState,
      SolverStateInv (buildOrderedSheetRows (resolveInventory options))
        (buildPanels fabricationDims planterInput (resolveLinerHeightPercent options))
        finalState ∧
      res.placements = finalState.placements ∧
      res.sheetUsages = finalState.sheetInstances.map usageOfInstance := by
  obtain ⟨row, rest, hrows, hres⟩ := run_ok_cases planterInput fabricationDims
    breakdowns options now res hrun
  have hg := buildPanels_good fabricationDims planterInput
    (resolveLinerHeightPercent options) hl hw hh
  refine ⟨runQueue (row :: rest) initialSolverState
      (buildCandidateQueue
        (buildPanels fabricationDims planterInput (resolveLinerHeightPercent options))
        (rest.foldl (fun m r => Q.qmin m r.costPerSqft) row.costPerSqft)), ?_, ?_, ?_⟩
  · rw [hrows]
    exact runQueue_inv _ _ (initialSolverState_inv _ _)
      (fun c hc => ⟨buildCandidateQueue_wf _ _ c hc, buildCandidateQueue_good _ _ hg c hc⟩)
  · rw [hres, solveWithRows_placements]
  · rw [hres, solveWithRows_sheetUsages]

/-- C1: in every solver result (for positive fabrication dimensions),
every placement lies fully within its sheet instance's bounds
(`0 ≤ x`, `0 ≤ y`, `x+width ≤ sheet.width`, `y+height ≤ sheet.height`)
and no two placements on the same sheet instance overlap (sharing an edge
does not count as overlapping). -/
theorem sheet_placements_in_bounds_and_disjoint (planterInput : PlanterInput)
    (fabricationDims : FabricationDimensions)
    (breakdowns : List CostBreakdownPreview) (options : Option SolverOptions)
    (now : String) (res : SolverResult)
    (hl : 0 < fabricationDims.length.val) (hw : 0 < fabricationDims.width.val)
    (hh : 0 < fabricationDims.height.val)
    (hrun : runPlanterSolver planterInput fabricationDims breakdowns options now
      = Except.ok res) :
    ∀ u ∈ res.sheetUsages,
      (∀ p ∈ u.placements, 0 ≤ p.x.val ∧ 0 ≤ p.y.val ∧
        p.x.val + p.width.val ≤ u.width.val ∧
        p.y.val + p.height.val ≤ u.height.val) ∧
      List.Pairwise (fun a b => ¬ RectsOverlap a b) u.placements := by
  obtain ⟨finalState, hinv, -, husages⟩ := run_ok_inv planterInput fabricationDims
    breakdowns options now res hrun hl hw hh
  intro u hu
  rw [husages] at hu
  obtain ⟨inst, hinst, rfl⟩ := List.mem_map.mp hu
  have hOK := hinv.sheetsOK inst hinst
  constructor
  · intro p hp
    have hg := hOK.1 p hp
    exact ⟨hg.1.1, hg.1.2.1, hg.1.2.2.1, hg.1.2.2.2⟩
  · exact hOK.2

/-- C10: every sheet-instance usage in the result hosts at least one
placement (an instance is only created when a placement on it succeeds),
and its `areaUsedSqft` is exactly the sum of its own placements' areas
divided by 144. -/
theorem sheet_usages_nonempty_and_area (planterInput : PlanterInput)
    (fabricationDims : FabricationDimensions)
    (breakdowns : List CostBreakdownPreview) (options : Option SolverOptions)
    (now : String) (res : SolverResult)
    (hl : 0 < fabricationDims.length.val) (hw : 0 < fabricationDims.width.val)
    (hh : 0 < fabricationDims.height.val)
    (hrun : runPlanterSolver planterInput fabricationDims breakdowns options now
      = Except.ok res) :
    ∀ u ∈ res.sheetUsages, u.placements ≠ [] ∧
      u.areaUsedSqft.val
        = (u.placements.map (fun p => p.width.val * p.height.val)).sum / 144 := by
  obtain ⟨finalState, hinv, -, husages⟩ := run_ok_inv planterInput fabricationDims
    breakdowns options now res hrun hl hw hh
  intro u hu
  rw [husages] at hu
  obtain ⟨inst, hinst, rfl⟩ := List.mem_map.mp hu
  have hacc := hinv.accounted inst hinst
  refine ⟨hacc.1, ?_⟩
  show (Q.div144 inst.usedAreaIn2).val = _
  rw [Q.val_div144, hacc.2]
  rfl

/-- C2: every panel-blueprint id appears in at most one placement of the
result, and the loop never attempts a candidate once any of its panel ids
is already placed (the step leaves the state untouched). -/
theorem panel_ids_placed_at_most_once (planterInput : PlanterInput)
    (fabricationDims : FabricationDimensions)
    (breakdowns : List CostBreakdownPreview) (options : Option SolverOptions)
    (now : String) (res : SolverResult)
    (hl : 0 < fabricationDims.length.val) (hw : 0 < fabricationDims.width.val)
    (hh : 0 < fabricationDims.height.val)
    (hrun : runPlanterSolver planterInput fabricationDims breakdowns options now
      = Except.ok res) :
    (res.placements.map (fun p => p.panelId)).Nodup ∧
    ∀ (rows : List SheetInventoryRow) (s : SolverState) (c : Candidate)
      (rest : List Candidate),
      (c.panels.any (fun p => s.placedPanels.contains p.id)) = true →
      stepCandidate rows s c rest = s := by
  obtain ⟨finalState, hinv, hplacements, -⟩ := run_ok_inv planterInput fabricationDims
    breakdowns options now res hrun hl hw hh
  constructor
  · rw [hplacements]
    exact hinv.nodupIds
  · intro rows s c rest hskip
    unfold stepCandidate
    rw [hskip]
    simp

theorem count_map_rowId_eq_filter_length (l : List SheetInstance) (key : String) :
    ((l.map (fun inst => inst.rowId)).count key)
      = ((l.map usageOfInstance).filter (fun u => u.rowId = key)).length := by
  induction l with
  | nil => rfl
  | cons inst rest ih =>
    simp only [List.map_cons, List.count_cons, List.filter_cons]
    by_cases hid : inst.rowId = key
    · rw [if_pos (by simp [hid]), if_pos (by simp [usageOfInstance, hid])]
      simp [ih]
    · rw [if_neg (by simp [hid]), if_neg (by simp [usageOfInstance, hid])]
      simp [ih]

/-- C4: for every inventory row with `limitQuantity = true` (inventory ids
distinct, quantities natural numbers), the number of sheet instances the
run opened from that row never exceeds its `quantity`; and the capacity
guard never blocks a row with `limitQuantity = false` (unlimited). -/
theorem row_quantity_respected (planterInput : PlanterInput)
    (fabricationDims : FabricationDimensions)
    (breakdowns : List CostBreakdownPreview) (options : Option SolverOptions)
    (now : String) (res : SolverResult)
    (hids : ((resolveInventory options).map (fun r => r.id)).Nodup)
    (hnat : ∀ r ∈ resolveInventory options, ∃ n : Nat, r.quantity.val = (n : ℚ))
    (hl : 0 < fabricationDims.length.val) (hw : 0 < fabricationDims.width.val)
    (hh : 0 < fabricationDims.height.val)
    (hrun : runPlanterSolver planterInput fabricationDims breakdowns options now
      = Except.ok res) :
    (∀ row ∈ resolveInventory options, row.limitQuantity = true →
      (((res.sheetUsages.filter (fun u => u.rowId = row.id)).length : ℚ))
        ≤ row.quantity.val) ∧
    (∀ (row : SheetInventoryRow) (usage : Nat), row.limitQuantity = false →
      rowAtCapacity row usage = false) := by
  obtain ⟨finalState, hinv, -, husages⟩ := run_ok_inv planterInput fabricationDims
    breakdowns options now res hrun hl hw hh
  have hperm := buildOrderedSheetRows_perm (resolveInventory options)
  constructor
  · intro row hrow hlim
    have hrow' : row ∈ buildOrderedSheetRows (resolveInventory options) :=
      hperm.symm.subset hrow
    have hids' : ((buildOrderedSheetRows (resolveInventory options)).map
        (fun r => r.id)).Nodup := ((hperm.map (fun r => r.id)).nodup_iff).mpr hids
    have hnat' : ∀ r ∈ buildOrderedSheetRows (resolveInventory options),
        ∃ n : Nat, r.quantity.val = (n : ℚ) :=
      fun r hr => hnat r (hperm.subset hr)
    have hbound := hinv.usageBound hids' hnat' row hrow' hlim
    obtain ⟨n, hn⟩ := hnat row hrow
    rw [husages, ← count_map_rowId_eq_filter_length]
    rw [hinv.counts row.id]
    rw [hn] at hbound ⊢
    rw [max_eq_right (Nat.cast_nonneg n)] at hbound
    exact hbound
  · intro row usage hlim
    unfold rowAtCapacity
    rw [hlim]
    rfl

/-- When the inner liner envelope collapses (any dimension `≤ 0`), no
built panel is a liner panel. -/
theorem buildPanels_no_liner (fabrication : FabricationDimensions)
    (input : PlanterInput) (linerHeightPercent : Q)
    (hcollapse : input.length.val ≤ input.linerDepth.val ∨
      input.width.val ≤ input.linerDepth.val ∨
      input.height.val * linerHeightPercent.val ≤ 0) :
    ∀ bp ∈ buildPanels fabrication input linerHeightPercent, bp.isLiner = false := by
  have hguard : (Q.qlt Q.zero (Q.qmax (Q.sub input.length input.linerDepth) Q.zero) &&
      Q.qlt Q.zero (Q.qmax (Q.sub input.width input.linerDepth) Q.zero) &&
      Q.qlt Q.zero (Q.qmax (Q.mul input.height linerHeightPercent) Q.zero)) = false := by
    rcases hcollapse with hcase | hcase | hcase
    · have hfalse : Q.qlt Q.zero
          (Q.qmax (Q.sub input.length input.linerDepth) Q.zero) = false := by
        rw [Q.qlt_false_iff, Q.val_qmax, Q.val_sub, Q.val_zero]
        exact max_le (by linarith) le_rfl
      rw [hfalse]
      rfl
    · have hfalse : Q.qlt Q.zero
          (Q.qmax (Q.sub input.width input.linerDepth) Q.zero) = false := by
        rw [Q.qlt_false_iff, Q.val_qmax, Q.val_sub, Q.val_zero]
        exact max_le (by linarith) le_rfl
      rw [hfalse]
      simp
    · have hfalse : Q.qlt Q.zero
          (Q.qmax (Q.mul input.height linerHeightPercent) Q.zero) = false := by
        rw [Q.qlt_false_iff, Q.val_qmax, Q.val_mul, Q.val_zero]
        exact max_le hcase le_rfl
      rw [hfalse]
      simp
  intro bp hbp
  unfold buildPanels at hbp
  simp only [List.mem_append] at hbp
  rcases hbp with ((hfl | hwall) | hshelf) | hliner
  · by_cases hfe : input.floorEnabled = true
    · rw [if_pos hfe] at hfl
      rcases List.mem_singleton.mp hfl with rfl
      rfl
    · rw [if_neg hfe] at hfl
      exact absurd hfl (List.not_mem_nil bp)
  · simp only [List.mem_cons, List.not_mem_nil, or_false] at hwall
    rcases hwall with rfl | rfl | rfl | rfl <;> rfl
  · by_cases hse : input.shelfEnabled = true
    · rw [if_pos hse] at hshelf
      rcases List.mem_singleton.mp hshelf with rfl
      rfl
    · rw [if_neg hse] at hshelf
      exact absurd hshelf (List.not_mem_nil bp)
  · by_cases hle : input.linerEnabled = true
    · rw [if_pos hle] at hliner
      rw [hguard] at hliner
      simp only [Bool.false_eq_true, if_false] at hliner
      exact absurd hliner (List.not_mem_nil bp)
    · rw [if_neg hle] at hliner
      exact absurd hliner (List.not_mem_nil bp)

/-- C8: when the liner is enabled but an inner-envelope dimension resolves
to `≤ 0`, the run raises no error, generates no liner panels, reports
`linerAreaSqft = 0`, and marks no placement as a liner. -/
theorem liner_collapse_soft (planterInput : PlanterInput)
    (fabricationDims : FabricationDimensions)
    (breakdowns : List CostBreakdownPreview) (options : Option SolverOptions)
    (now : String) (res : SolverResult)
    (hliner : planterInput.linerEnabled = true)
    (hcollapse : planterInput.length.val ≤ planterInput.linerDepth.val ∨
      planterInput.width.val ≤ planterInput.linerDepth.val ∨
      planterInput.height.val * (resolveLinerHeightPercent options).val ≤ 0)
    (hl : 0 < fabricationDims.length.val) (hw : 0 < fabricationDims.width.val)
    (hh : 0 < fabricationDims.height.val)
    (hrun : runPlanterSolver planterInput fabricationDims breakdowns options now
      = Except.ok res) :
    ((buildPanels fabricationDims planterInput
      (resolveLinerHeightPercent options)).filter (fun p => p.isLiner) = []) ∧
    res.linerAreaSqft.val = 0 ∧
    ∀ p ∈ res.placements, p.isLiner = false := by
  have hnolin := buildPanels_no_liner fabricationDims planterInput
    (resolveLinerHeightPercent options) hcollapse
  have hfilter : (buildPanels fabricationDims planterInput
      (resolveLinerHeightPercent options)).filter (fun p => p.isLiner) = [] := by
    rw [List.filter_eq_nil]
    intro bp hbp
    simp [hnolin bp hbp]
  refine ⟨hfilter, ?_, ?_⟩
  · obtain ⟨row, rest, -, hres⟩ := run_ok_cases planterInput fabricationDims
      breakdowns options now res hrun
    rw [hres, solveWithRows_linerAreaSqft, hfilter]
    simp
  · obtain ⟨finalState, hinv, hplacements, -⟩ := run_ok_inv planterInput
      fabricationDims breakdowns options now res hrun hl hw hh
    intro p hp
    rw [hplacements] at hp
    obtain ⟨bp, hbp, -, hlin⟩ := hinv.fromPanels p hp
    rw [hlin]
    exact hnolin bp hbp

theorem scenarioRun_eq : scenarioRun = Except.ok scenarioResult := rfl

theorem linerCollapseRun_eq : linerCollapseRun = Except.ok linerCollapseResult := rfl

theorem Q.val_eq_zero_of_qeq_zero {a : Q} (h : Q.qeq a Q.zero = true) : a.val = 0 := by
  have := (Q.qeq_iff a Q.zero).mp h
  simpa using this

/-- C6: a candidate that fits on no open instance and on no new sheet is
skipped without an error (the step leaves the solver state untouched);
in particular the starved scenario — one `10×10` row with
`limitQuantity = true, quantity = 1`, too small for any panel — returns a
result with zero placements, zero opened sheets and zero accounted
material area, rather than throwing. -/
theorem unplaceable_candidate_skipped :
    (∀ (rows : List SheetInventoryRow) (s : SolverState) (c : Candidate)
      (rest : List Candidate),
      placeCandidateOnSheets c s.sheetInstances rows s.rowUsage
        (rest.filter (fun queued => queued.panels.all
          (fun p => !s.placedPanels.contains p.id))) = none →
      stepCandidate rows s c rest = s) ∧
    (∃ r, starvedRun = Except.ok r ∧ r.placements = [] ∧ r.sheetUsages = [] ∧
      r.materialAreaSqft.val = 0 ∧ r.totalMaterialCost.val = 0) := by
  constructor
  · intro rows s c rest hnone
    unfold stepCandidate
    rcases Bool.eq_false_or_eq_true
        (c.panels.any (fun p => s.placedPanels.contains p.id)) with hany | hany
    · rw [hany]
      simp only [if_true]
    · rw [hany]
      simp only [Bool.false_eq_true, if_false, hnone]
  · refine ⟨_, rfl, rfl, rfl, Q.val_eq_zero_of_qeq_zero (by decide),
      Q.val_eq_zero_of_qeq_zero (by decide)⟩

/-- C9: the minimal-box scenario (`36×24×24`, lip `2.125`, optional
features off, one 48×96 inventory row at $2.73 with quantity 10) generates
exactly 5 panels — the floor and the four walls — places all 5 of them
(each panel id exactly once) across one or two sheet instances, yields a
strictly positive material cost, and no two placements on a sheet
overlap. -/
theorem minimal_box_scenario :
    (buildPanels scenarioFab scenarioInput
      (resolveLinerHeightPercent (some scenarioOptions))).map (fun p => p.id)
      = ["panel-floor", "panel-long-a", "panel-long-b",
        "panel-short-a", "panel-short-b"] ∧
    ∃ r, scenarioRun = Except.ok r ∧
      r.placements.length = 5 ∧
      (r.placements.map (fun p => p.panelId)).Nodup ∧
      (∀ bp ∈ buildPanels scenarioFab scenarioInput
          (resolveLinerHeightPercent (some scenarioOptions)),
        ∃ p ∈ r.placements, p.panelId = bp.id) ∧
      (r.sheetUsages.length = 1 ∨ r.sheetUsages.length = 2) ∧
      0 < r.totalMaterialCost.val ∧
      ∀ u ∈ r.sheetUsages,
        List.Pairwise (fun a b => ¬ RectsOverlap a b) u.placements := by
  refine ⟨by decide, scenarioResult, scenarioRun_eq, by decide, by decide, by decide,
    by decide, Q.val_pos_of_qlt_zero (by decide), ?_⟩
  intro u hu
  refine (pairwiseNoOverlap_spec u.placements).mp ?_
  revert hu
  revert u
  decide

theorem bounds_witness :
    (∀ u ∈ scenarioResult.sheetUsages,
      (∀ p ∈ u.placements, 0 ≤ p.x.val ∧ 0 ≤ p.y.val ∧
        p.x.val + p.width.val ≤ u.width.val ∧
        p.y.val + p.height.val ≤ u.height.val) ∧
      List.Pairwise (fun a b => ¬ RectsOverlap a b) u.placements) ∧
    scenarioRun = Except.ok scenarioResult :=
  ⟨sheet_placements_in_bounds_and_disjoint scenarioInput scenarioFab []
      (some scenarioOptions) "2026-01-01" scenarioResult
      (Q.val_pos_of_qlt_zero (by decide)) (Q.val_pos_of_qlt_zero (by decide))
      (Q.val_pos_of_qlt_zero (by decide)) scenarioRun_eq, scenarioRun_eq⟩

theorem once_witness :
    ((scenarioResult.placements.map (fun p => p.panelId)).Nodup ∧
      ∀ (rows : List SheetInventoryRow) (s : SolverState) (c : Candidate)
        (rest : List Candidate),
        (c.panels.any (fun p => s.placedPanels.contains p.id)) = true →
        stepCandidate rows s c rest = s) ∧
    scenarioRun = Except.ok scenarioResult :=
  ⟨panel_ids_placed_at_most_once scenarioInput scenarioFab []
      (some scenarioOptions) "2026-01-01" scenarioResult
      (Q.val_pos_of_qlt_zero (by decide)) (Q.val_pos_of_qlt_zero (by decide))
      (Q.val_pos_of_qlt_zero (by decide)) scenarioRun_eq, scenarioRun_eq⟩

theorem costs_witness :
    linerCollapseResult.totalMaterialCost.val
      = (linerCollapseResult.sheetUsages.map
          (fun u => u.width.val * u.height.val / 144 * u.costPerSqft.val)).sum ∧
    linerCollapseResult.totalFabricationCost.val
      = linerCollapseResult.totalMaterialCost.val
        + ((([⟨"Weld", Q.ofNat 100⟩, ⟨"Liner", Q.ofNat 55⟩]
            : List CostBreakdownPreview).filter
            (fun row => row.category ≠ "Liner")).map (fun row => row.price.val)).sum
        + linerCollapseResult.linerExtraCost.val ∧
    linerCollapseResult.linerExtraCost.val
      = (match ([⟨"Weld", Q.ofNat 100⟩, ⟨"Liner", Q.ofNat 55⟩]
          : List CostBreakdownPreview).find? (fun row => row.category = "Liner") with
        | some row => row.price.val
        | none => 0) :=
  totalCosts_spec linerCollapseInput (buildFabricationDimensions linerCollapseInput)
    [⟨"Weld", Q.ofNat 100⟩, ⟨"Liner", Q.ofNat 55⟩] (some scenarioOptions)
    "2026-01-01" linerCollapseResult linerCollapseRun_eq

theorem quantity_witness :
    (∀ row ∈ resolveInventory (some scenarioOptions), row.limitQuantity = true →
      (((scenarioResult.sheetUsages.filter (fun u => u.rowId = row.id)).length : ℚ))
        ≤ row.quantity.val) ∧
    scenarioRun = Except.ok scenarioResult :=
  ⟨(row_quantity_respected scenarioInput scenarioFab [] (some scenarioOptions)
      "2026-01-01" scenarioResult (by decide)
      (fun r hr => by
        rcases List.mem_singleton.mp hr with rfl
        exact ⟨10, Q.val_ofNat 10⟩)
      (Q.val_pos_of_qlt_zero (by decide)) (Q.val_pos_of_qlt_zero (by decide))
      (Q.val_pos_of_qlt_zero (by decide)) scenarioRun_eq).1, scenarioRun_eq⟩

theorem collapse_witness :
    (((buildPanels (buildFabricationDimensions linerCollapseInput) linerCollapseInput
      (resolveLinerHeightPercent (some scenarioOptions))).filter
        (fun p => p.isLiner) = []) ∧
      linerCollapseResult.linerAreaSqft.val = 0 ∧
      ∀ p ∈ linerCollapseResult.placements, p.isLiner = false) ∧
    linerCollapseRun = Except.ok linerCollapseResult :=
  ⟨liner_collapse_soft linerCollapseInput
      (buildFabricationDimensions linerCollapseInput)
      [⟨"Weld", Q.ofNat 100⟩, ⟨"Liner", Q.ofNat 55⟩] (some scenarioOptions)
      "2026-01-01" linerCollapseResult rfl (Or.inr (Or.inl (le_of_eq rfl)))
      (Q.val_pos_of_qlt_zero (by decide)) (Q.val_pos_of_qlt_zero (by decide))
      (Q.val_pos_of_qlt_zero (by decide)) linerCollapseRun_eq,
    linerCollapseRun_eq⟩

theorem usage_witness :
    (∀ u ∈ scenarioResult.sheetUsages, u.placements ≠ [] ∧
      u.areaUsedSqft.val
        = (u.placements.map (fun p => p.width.val * p.height.val)).sum / 144) ∧
    scenarioRun = Except.ok scenarioResult :=
  ⟨sheet_usages_nonempty_and_area scenarioInput scenarioFab []
      (some scenarioOptions) "2026-01-01" scenarioResult
      (Q.val_pos_of_qlt_zero (by decide)) (Q.val_pos_of_qlt_zero (by decide))
      (Q.val_pos_of_qlt_zero (by decide)) scenarioRun_eq, scenarioRun_eq⟩
